import Mathlib

/-!
Verification development for the elusiv on-chain settlement core.

The definitions below are a shallow embedding of the Rust sources:
* `src/src/state/queue.rs` — the `RingQueue` trait and the
  `queue_account!`-generated `CommitmentQueue` / `BaseCommitmentQueue`;
* `src/elusiv/src/processor/proof.rs` — the proof-lifecycle instruction
  handlers (`init_verification_transfer_fee`, `init_verification_proof`,
  `compute_verification`, `finalize_verification_send`,
  `finalize_verification_send_nullifier`,
  `finalize_verification_transfer_lamports`,
  `finalize_verification_transfer_token`) and their helpers.

External collaborators that the handlers consume (token transfers, price
oracles, the pairing stepper, the instructions sysvar, account opening and
closing) are passed in as explicit `Except`-valued parameters, mirroring the
spec's instruction to treat them as opaque interfaces.  Machine integers are
modelled as `Nat`; `u64` overflow is made explicit where the source checks it.
Handlers that mutate accounts through `&mut` references are modelled as
functions returning both the `Result` and the final (possibly mutated) state,
so that mutations performed before an error return stay observable.
-/

/-- The error variants of `ElusivError` (and the `ProgramError`s they are
converted into) that appear in the embedded code.  `Panicked` models a Rust
`unwrap()` failure (which aborts the instruction), `MathErr` models the
checked-arithmetic error `MATH_ERR`, and `External` stands for an error value
bubbled up from an external collaborator. -/
inductive Err where
  | InvalidAccount
  | InvalidAccountState
  | InvalidMerkleRoot
  | InvalidPublicInputs
  | InvalidInstructionData
  | InputsMismatch
  | InvalidOtherInstruction
  | ComputationIsAlreadyFinished
  | ComputationIsNotYetFinished
  | CouldNotInsertNullifier
  | InvalidFeeVersion
  | FeatureNotAvailable
  | QueueIsFull
  | QueueIsEmpty
  | MathErr
  | Panicked
  | External (code : Nat)
deriving DecidableEq, Repr

/-- Equality on `Except` results is decidable componentwise. -/
instance {e a : Type} [DecidableEq e] [DecidableEq a] : DecidableEq (Except e a)
  | .ok x, .ok y =>
    if h : x = y then .isTrue (by rw [h]) else .isFalse (by simp [h])
  | .ok _, .error _ => .isFalse (by simp)
  | .error _, .ok _ => .isFalse (by simp)
  | .error x, .error y =>
    if h : x = y then .isTrue (by rw [h]) else .isFalse (by simp [h])

/-! ### Ring queue (`src/src/state/queue.rs`)

The `RingQueue` trait stores a `head` pointer, a `tail` pointer and a data
array accessed through `get_data`/`set_data`.  We model the data storage as a
total function from indices to elements, and parameterise every operation by
the trait constant `SIZE`. -/

/-- State of a `RingQueue` implementor: `head`, `tail` and the backing data
storage (`get_data`/`set_data`). -/
structure RQState (α : Type) where
  head : Nat
  tail : Nat
  data : Nat → α

/-- A queue with both pointers at 0 (the state of a freshly created queue
account, whose bytes are all zero). -/
def RQState.empty (α : Type) (d : α) : RQState α := ⟨0, 0, fun _ => d⟩

/-- `RingQueue::enqueue` (queue.rs lines 79-90): fails with `QueueIsFull` when
`(tail + 1) % SIZE == head`, otherwise writes the value at index `tail` and
advances `tail`. -/
def RingQueue.enqueue (SIZE : Nat) (q : RQState α) (value : α) :
    Except Err (RQState α) :=
  let next_tail := (q.tail + 1) % SIZE
  if next_tail ≠ q.head then
    .ok { head := q.head, tail := next_tail,
          data := fun i => if i = q.tail then value else q.data i }
  else
    .error .QueueIsFull

/-- `RingQueue::view` (queue.rs lines 97-103). -/
def RingQueue.view (SIZE : Nat) (q : RQState α) (offset : Nat) :
    Except Err α :=
  if q.head ≠ q.tail then
    .ok (q.data ((q.head + offset) % SIZE))
  else
    .error .QueueIsEmpty

/-- `RingQueue::view_first` (queue.rs lines 93-95). -/
def RingQueue.view_first (SIZE : Nat) (q : RQState α) : Except Err α :=
  RingQueue.view SIZE q 0

/-- `RingQueue::dequeue_first` (queue.rs lines 106-116): fails with
`QueueIsEmpty` when `head == tail`, otherwise returns the value at `head` and
advances `head`. -/
def RingQueue.dequeue_first (SIZE : Nat) (q : RQState α) :
    Except Err (α × RQState α) :=
  if q.head ≠ q.tail then
    .ok (q.data q.head, { q with head := (q.head + 1) % SIZE })
  else
    .error .QueueIsEmpty

/-- `RingQueue::len` (queue.rs lines 130-139): returns `head + tail` when
`tail < head` and `tail - head` otherwise.  (This is the source's literal
formula; see the theorems about it below.) -/
def RingQueue.len (q : RQState α) : Nat :=
  if q.tail < q.head then q.head + q.tail else q.tail - q.head

/-- The true modular number of elements held by a ring queue with pointers
`head`, `tail` in `[0, SIZE)`: `(tail - head + SIZE) % SIZE`. -/
def trueModularLen (SIZE head tail : Nat) : Nat :=
  (tail + SIZE - head) % SIZE

/-- The abstraction of a ring-queue state to the list of elements it holds,
read from `head` in FIFO order. -/
def RQState.toList (SIZE : Nat) (q : RQState α) : List α :=
  (List.range (trueModularLen SIZE q.head q.tail)).map
    (fun i => q.data ((q.head + i) % SIZE))

/-- Pointer invariant maintained by the queue operations. -/
def RQInv (SIZE : Nat) (q : RQState α) : Prop :=
  q.head < SIZE ∧ q.tail < SIZE

instance (SIZE : Nat) (q : RQState α) : Decidable (RQInv SIZE q) := by
  unfold RQInv; infer_instance

/-- The `queue_account!` macro (queue.rs line 36) instantiates the trait
constant as `SIZE = $size * Self::N::SIZE`, where `$size` is the declared
element count of the `data` array and `N::SIZE` is the Borsh byte size of the
element type. -/
def queue_account_SIZE (size elementByteSize : Nat) : Nat :=
  size * elementByteSize

/-- Modelled from the spec: `CommitmentHashRequest` (defined in the
repository's `processor` module, which is not among the sources) is a "small
fixed-size record (commitment value, fee version, batching-rate hint)"; its
Borsh size is the 32-byte commitment plus a `u32` fee version plus a `u32`
batching rate. -/
def CommitmentHashRequest.byteSIZE : Nat := 32 + 4 + 4

/-- Modelled from the spec: `BaseCommitmentHashRequest` is described by the
same field list as `CommitmentHashRequest` (commitment value, fee version,
batching-rate hint), so it is at least 40 bytes; only the fact that the size
is larger than one byte matters below. -/
def BaseCommitmentHashRequest.byteSIZE : Nat := 32 + 4 + 4

/-- The `SIZE` constant of the generated `CommitmentQueue`
(`queue_account!(CommitmentQueue, .., 240, CommitmentHashRequest)`,
queue.rs line 57). -/
def CommitmentQueue.SIZE : Nat :=
  queue_account_SIZE 240 CommitmentHashRequest.byteSIZE

/-- The `SIZE` constant of the generated `BaseCommitmentQueue`
(`queue_account!(BaseCommitmentQueue, .., 128, BaseCommitmentHashRequest)`,
queue.rs line 54). -/
def BaseCommitmentQueue.SIZE : Nat :=
  queue_account_SIZE 128 BaseCommitmentHashRequest.byteSIZE

/-- Iterated enqueue of the values `v₀, …, v_{n-1}` produced by `f`,
starting from state `q`; `none` if some enqueue fails. -/
def enqueueN (SIZE : Nat) (f : Nat → α) (q : RQState α) :
    Nat → Option (RQState α)
  | 0 => some q
  | n + 1 =>
    match enqueueN SIZE f q n with
    | none => none
    | some q' =>
      match RingQueue.enqueue SIZE q' (f n) with
      | .ok q'' => some q''
      | .error _ => none

/-- One queue operation: enqueue a value or dequeue the first element. -/
inductive QOp (α : Type) where
  | enq (v : α)
  | deq
deriving DecidableEq, Repr

/-- Run a sequence of operations against the ring queue, collecting the values
returned by `dequeue_first`; `none` as soon as any operation fails. -/
def runRing (SIZE : Nat) (q : RQState α) (outs : List α) :
    List (QOp α) → Option (RQState α × List α)
  | [] => some (q, outs)
  | QOp.enq v :: ops =>
    match RingQueue.enqueue SIZE q v with
    | .ok q' => runRing SIZE q' outs ops
    | .error _ => none
  | QOp.deq :: ops =>
    match RingQueue.dequeue_first SIZE q with
    | .ok (v, q') => runRing SIZE q' (outs ++ [v]) ops
    | .error _ => none

/-- The list-based model queue with capacity `cap`: an enqueue is allowed only
while fewer than `cap` elements are held, a dequeue only on a non-empty
queue.  Returns the final contents and the dequeued values. -/
def modelRun (cap : Nat) (l : List α) (outs : List α) :
    List (QOp α) → Option (List α × List α)
  | [] => some (l, outs)
  | QOp.enq v :: ops =>
    if l.length < cap then modelRun cap (l ++ [v]) outs ops else none
  | QOp.deq :: ops =>
    match l with
    | [] => none
    | x :: xs => modelRun cap xs (outs ++ [x]) ops

/-- The values enqueued by a sequence of operations, in order. -/
def enqueuedValues : List (QOp α) → List α
  | [] => []
  | QOp.enq v :: ops => v :: enqueuedValues ops
  | QOp.deq :: ops => enqueuedValues ops

/-! ### Verification state machine data model
(`src/elusiv/src/processor/proof.rs`) -/

/-- `VerificationState` (linear lifecycle of a `VerificationAccount`). -/
inductive VerificationState where
  | None
  | FeeTransferred
  | ProofSetup
  | InsertNullifiers
  | Finalized
  | Closed
deriving DecidableEq, Repr

/-- `VerificationAccountData` (the `other_data` record of a
`VerificationAccount`).  256-bit values are modelled as `Nat`. -/
structure VerificationAccountData where
  fee_payer : Nat
  fee_payer_account : Nat
  recipient_wallet : Option Nat
  skip_nullifier_pda : Bool
  min_batching_rate : Nat
  token_id : Nat
  subvention : Nat
  network_fee : Nat
  commitment_hash_fee : Nat
  commitment_hash_fee_token : Nat
  proof_verification_fee : Nat
  associated_token_account_rent : Nat
deriving DecidableEq, Repr

/-- `InputCommitment`: an optional Merkle root plus a nullifier hash. -/
structure InputCommitment where
  root : Option Nat
  nullifier_hash : Nat
deriving DecidableEq, Repr

/-- `JoinSplitPublicInputs`. -/
structure JoinSplitPublicInputs where
  input_commitments : List InputCommitment
  output_commitment : Nat
  fee_version : Nat
  amount : Nat
  fee : Nat
  token_id : Nat
deriving DecidableEq, Repr

/-- Modelled from the spec: `JoinSplitPublicInputs::total_amount` (defined in
the `types` module, not among the sources) is the total value moved by the
join-split, i.e. `amount + fee`. -/
def JoinSplitPublicInputs.total_amount (j : JoinSplitPublicInputs) : Nat :=
  j.amount + j.fee

/-- `SendPublicInputs`. -/
structure SendPublicInputs where
  join_split : JoinSplitPublicInputs
  recipient_is_associated_token_account : Bool
  hashed_inputs : Nat
  current_time : Nat
  solana_pay_transfer : Bool
deriving DecidableEq, Repr

/-- Modelled from the spec: `MigratePublicInputs` (the Migrate statement,
defined in the `types` module, not among the sources); only its join-split
part is consumed by the embedded handlers. -/
structure MigratePublicInputs where
  join_split : JoinSplitPublicInputs
deriving DecidableEq, Repr

/-- `ProofRequest`. -/
inductive ProofRequest where
  | Send (public_inputs : SendPublicInputs)
  | Migrate (public_inputs : MigratePublicInputs)
deriving DecidableEq, Repr

/-- The `proof_request!` projection to the join-split inputs
(`public_inputs.join_split_inputs()`). -/
def ProofRequest.join_split_inputs : ProofRequest → JoinSplitPublicInputs
  | .Send p => p.join_split
  | .Migrate p => p.join_split

/-- `ProofRequest::fee_version` (proof.rs lines 69-71). -/
def ProofRequest.fee_version (r : ProofRequest) : Nat :=
  r.join_split_inputs.fee_version

/-- A Groth16 proof: three curve points, modelled opaquely. -/
structure Proof where
  a : Nat
  b : Nat
  c : Nat
deriving DecidableEq, Repr

/-- The fields of a `VerificationAccount` that the embedded handlers read or
write. -/
structure VerificationAccount where
  state : VerificationState
  vkey_id : Nat
  request : ProofRequest
  other_data : VerificationAccountData
  is_verified : Option Bool
  proof_a : Nat
  proof_b : Nat
  proof_c : Nat
deriving DecidableEq, Repr

/-- Modelled from the spec: `VerificationAccount::setup` (defined in the
`proof` module, not among the sources) stores the immutable fields of a fresh,
zeroed verification account and leaves the lifecycle at its start: state
`None` and `is_verified` absent ("pending"). -/
def VerificationAccount.setup (fee_payer : Nat) (skip_nullifier_pda : Bool)
    (vkey_id : Nat) (request : ProofRequest) : VerificationAccount :=
  { state := .None
    vkey_id := vkey_id
    request := request
    other_data :=
      { fee_payer := fee_payer
        fee_payer_account := 0
        recipient_wallet := none
        skip_nullifier_pda := skip_nullifier_pda
        min_batching_rate := 0
        token_id := 0
        subvention := 0
        network_fee := 0
        commitment_hash_fee := 0
        commitment_hash_fee_token := 0
        proof_verification_fee := 0
        associated_token_account_rent := 0 }
    is_verified := none
    proof_a := 0
    proof_b := 0
    proof_c := 0 }

/-- `MAX_MT_COUNT` (proof.rs line 90): at most two distinct Merkle trees per
join-split. -/
def MAX_MT_COUNT : Nat := 2

/-- Modelled from the spec: `MT_COMMITMENT_COUNT` (the fixed commitment
capacity of one Merkle tree, defined in the `state` module, not among the
sources); the trees are fixed-capacity, the concrete value is `2^20`. -/
def MT_COMMITMENT_COUNT : Nat := 2 ^ 20

/-- Modelled from the spec: the scalar-field modulus used by `reduce()` to map
a raw 256-bit value to its "reduced canonical field-element representation"
(the BN254 scalar field order). -/
def FIELD_MODULUS : Nat :=
  21888242871839275222246405745257275088548364400416034343698204186575808495617

/-- Modelled from the spec: `RawU256::reduce` — reduction of a raw 256-bit
value into the canonical field-element form. -/
def reduce (x : Nat) : Nat := x % FIELD_MODULUS

/-- Modelled from the spec: `ZERO_COMMITMENT_RAW`, the canonical
zero-commitment constant (an arbitrary fixed 256-bit value; no theorem below
depends on which). -/
def ZERO_COMMITMENT_RAW : Nat := 0

/-- Modelled from the spec: checked `u64` token/lamports addition (the
`(a + b)?` pattern on `Token`/`Lamports`); overflow yields `MATH_ERR`. -/
def checkedAdd (a b : Nat) : Except Err Nat :=
  if a + b < 2 ^ 64 then .ok (a + b) else .error .MathErr

/-- Modelled from the spec: checked `u64` token subtraction (the `(a - b)?`
pattern on `Token`); underflow yields `MATH_ERR`. -/
def checkedSub (a b : Nat) : Except Err Nat :=
  if b ≤ a then .ok (a - b) else .error .MathErr

/-- Modelled from the spec: wrapping `u64` subtraction (unchecked `a - b` in
the release-built source). -/
def wrapSub64 (a b : Nat) : Nat :=
  if b ≤ a then a - b else a + 2 ^ 64 - b

/-- `CommitmentHashRequest` as constructed by the terminal transfer handlers
(proof.rs lines 695-701): output commitment (reduced), fee version and
minimum batching rate. -/
structure CommitmentHashRequest where
  commitment : Nat
  fee_version : Nat
  min_batching_rate : Nat
deriving DecidableEq, Repr

/-- `FinalizeSendData` (proof.rs lines 406-420). -/
structure FinalizeSendData where
  timestamp : Nat
  total_amount : Nat
  token_id : Nat
  mt_index : Nat
  commitment_index : Nat
  iv : Nat
  encrypted_owner : Nat
deriving DecidableEq, Repr

/-- The argument tuple of `generate_hashed_inputs` (the hash itself lives in
the `types` module and is consumed as an opaque function). -/
structure GenHashArgs where
  recipient : Nat
  identifier : Nat
  iv : Nat
  encrypted_owner : Nat
  reference : Nat
  is_associated_token_account : Bool
  memo : Option (List Nat)
deriving DecidableEq, Repr

/-- `minimum_commitment_mt_index` (proof.rs lines 961-970): estimated index of
the next commitment inside a tree and the tree it lands in. -/
def minimum_commitment_mt_index (mt_index commitment_count commitment_queue_len : Nat) :
    Nat × Nat :=
  let count := MT_COMMITMENT_COUNT
  let index := (commitment_count + commitment_queue_len) % count
  let mt_offset := (commitment_count + commitment_queue_len) / count
  (index, mt_index + mt_offset)

/-- `init_verification_proof` (proof.rs lines 333-351).  Returns the handler
result together with the final (possibly mutated) verification account. -/
def init_verification_proof (fee_payer_key : Nat) (proof : Proof)
    (va : VerificationAccount) : Except Err Unit × VerificationAccount :=
  if va.state ≠ VerificationState.FeeTransferred then
    (.error .InvalidAccountState, va)
  else if va.is_verified.isSome then
    (.error .ComputationIsAlreadyFinished, va)
  else if va.other_data.fee_payer ≠ fee_payer_key then
    (.error .InvalidAccount, va)
  else
    (.ok (),
     { va with
        proof_a := proof.a, proof_b := proof.b, proof_c := proof.c,
        state := VerificationState.ProofSetup })

/-- `compute_verification` (proof.rs lines 356-404).  `vkey_is_frozen` and
`vkey_id_arg` are the vkey-account flag and the instruction argument;
`stepper` is the result of `execute_on_child_account_mut` (outer layer) around
`VerifyingKey::new(..).ok_or(InvalidAccountState)` / `verify_partial` (inner
layer). -/
def compute_verification (vkey_is_frozen : Bool) (vkey_id_arg : Nat)
    (stepper : Except Err (Except Err (Option Bool)))
    (va : VerificationAccount) : Except Err Unit × VerificationAccount :=
  if ¬ vkey_is_frozen then
    (.error .InvalidAccount, va)
  else if va.vkey_id ≠ vkey_id_arg then
    (.error .InvalidAccount, va)
  else if va.is_verified.isSome then
    (.error .ComputationIsAlreadyFinished, va)
  else if ¬ (va.state = VerificationState.None ∨
             va.state = VerificationState.ProofSetup) then
    (.error .InvalidAccountState, va)
  else
    match stepper with
    | .error e => (.error e, va)
    | .ok result =>
      match result with
      | .ok (some final_result) =>
        (.ok (), { va with is_verified := some final_result })
      | .ok none => (.ok (), va)
      | .error e =>
        if e = Err.InvalidAccountState then
          (.error e, va)
        else
          (.ok (), { va with is_verified := some false })

/-- The outcomes of the external collaborators consumed by
`init_verification_transfer_fee`, in call order: governor reads, price oracle,
fee-schedule conversions, token-account verification and the two transfers. -/
structure TransferFeeEnv where
  governor_fee_version : Nat
  min_batching_rate : Nat
  price : Except Err Unit
  subvention : Except Err Nat
  proof_verification_fee : Except Err Nat
  commitment_hash_fee : Nat
  commitment_hash_fee_token : Except Err Nat
  network_fee : Nat
  verify_pool : Except Err Unit
  verify_fee_collector : Except Err Unit
  spl_rent : Except Err Nat
  rent_into_token : Except Err Nat
  transfer_hash_fee : Except Err Unit
  transfer_subvention : Except Err Unit
  verify_token_acc : Except Err Bool
deriving Repr

/-- The part of `init_verification_transfer_fee` after the fee-floor guard
(proof.rs lines 253-326): token-account checks, the associated-token-account
rent reservation, the two transfers, and the final `other_data`/state
writes. -/
def init_verification_transfer_fee_rest (fee_payer_key fee_payer_token_account_key : Nat)
    (env : TransferFeeEnv) (subvention proof_verification_fee commitment_hash_fee_token : Nat)
    (va : VerificationAccount) : Except Err Unit × VerificationAccount :=
  let join_split := va.request.join_split_inputs
  let token_id := join_split.token_id
  match env.verify_pool with
  | .error e => (.error e, va)
  | .ok () =>
  match env.verify_fee_collector with
  | .error e => (.error e, va)
  | .ok () =>
  let ataStep : Except Err (Nat × Nat) :=
    match va.request with
    | .Send public_inputs =>
      if public_inputs.recipient_is_associated_token_account ∧ token_id = 0 then
        .error .InvalidPublicInputs
      else if public_inputs.recipient_is_associated_token_account then
        match env.spl_rent with
        | .error e => .error e
        | .ok rent =>
          match env.rent_into_token with
          | .error e => .error e
          | .ok rent_token =>
            if public_inputs.join_split.amount ≥ rent_token then
              .ok (rent, rent_token)
            else
              .error .InvalidPublicInputs
      else .ok (0, 0)
    | .Migrate _ => .ok (0, 0)
  match ataStep with
  | .error e => (.error e, va)
  | .ok (associated_token_account_rent, associated_token_account_rent_token) =>
  match checkedAdd env.commitment_hash_fee associated_token_account_rent with
  | .error e => (.error e, va)
  | .ok _ =>
  match env.transfer_hash_fee with
  | .error e => (.error e, va)
  | .ok () =>
  match env.transfer_subvention with
  | .error e => (.error e, va)
  | .ok () =>
  match env.verify_token_acc with
  | .error e => (.error e, va)
  | .ok b =>
  if ¬ b then (.error .InvalidAccount, va)
  else
    (.ok (),
     { va with
        other_data :=
          { fee_payer := fee_payer_key
            fee_payer_account := fee_payer_token_account_key
            recipient_wallet := none
            skip_nullifier_pda := va.other_data.skip_nullifier_pda
            min_batching_rate := env.min_batching_rate
            token_id := token_id
            subvention := subvention
            network_fee := env.network_fee
            commitment_hash_fee := env.commitment_hash_fee
            commitment_hash_fee_token := commitment_hash_fee_token
            proof_verification_fee := proof_verification_fee
            associated_token_account_rent := associated_token_account_rent_token }
        state := VerificationState.FeeTransferred })

/-- `init_verification_transfer_fee` (proof.rs lines 210-327): state and
fee-payer guards, fee-version guard, minimum-fee computation
`((commitment_hash_fee_token + proof_verification_fee) + network_fee) -
subvention` with checked token arithmetic, the fee-floor guard
`join_split.fee >= fee.amount()`, then the transfer part. -/
def init_verification_transfer_fee (fee_payer_key fee_payer_token_account_key : Nat)
    (env : TransferFeeEnv) (va : VerificationAccount) :
    Except Err Unit × VerificationAccount :=
  if va.state ≠ VerificationState.None then
    (.error .InvalidAccountState, va)
  else if va.other_data.fee_payer ≠ fee_payer_key then
    (.error .InvalidAccount, va)
  else
  let join_split := va.request.join_split_inputs
  if va.request.fee_version ≠ env.governor_fee_version then
    (.error .InvalidFeeVersion, va)
  else
  match env.price with
  | .error e => (.error e, va)
  | .ok () =>
  match env.subvention with
  | .error e => (.error e, va)
  | .ok subvention =>
  match env.proof_verification_fee with
  | .error e => (.error e, va)
  | .ok proof_verification_fee =>
  match env.commitment_hash_fee_token with
  | .error e => (.error e, va)
  | .ok commitment_hash_fee_token =>
  match checkedAdd commitment_hash_fee_token proof_verification_fee with
  | .error e => (.error e, va)
  | .ok s1 =>
  match checkedAdd s1 env.network_fee with
  | .error e => (.error e, va)
  | .ok s2 =>
  match checkedSub s2 subvention with
  | .error e => (.error e, va)
  | .ok fee =>
  if join_split.fee < fee then
    (.error .InvalidPublicInputs, va)
  else
    init_verification_transfer_fee_rest fee_payer_key fee_payer_token_account_key
      env subvention proof_verification_fee commitment_hash_fee_token va

/-- `finalize_verification_send` (proof.rs lines 430-519).  `g` is the opaque
`generate_hashed_inputs`; `memo_result` the outcome of
`get_memo_from_instructions`; `enforce` the outcome of
`enforce_finalize_send_instructions`; `trees_count` / `next_commitment_ptr`
are the storage-account reads and `queue` the commitment-queue account. -/
def finalize_verification_send (g : GenHashArgs → Nat)
    (recipient_key identifier_key transaction_reference_key instructions_key : Nat)
    (memo_result : Except Err (List Nat))
    (enforce : Except Err Unit)
    (trees_count next_commitment_ptr : Nat)
    (queue : RQState CommitmentHashRequest)
    (data : FinalizeSendData) (uses_memo : Bool)
    (va : VerificationAccount) : Except Err Unit × VerificationAccount :=
  if va.state ≠ VerificationState.ProofSetup then
    (.error .InvalidAccountState, va)
  else
  match va.request with
  | .Migrate _ => (.error .FeatureNotAvailable, va)
  | .Send public_inputs =>
    let memoStep : Except Err (Option (List Nat)) :=
      if uses_memo then
        match memo_result with
        | .error e => .error e
        | .ok m => .ok (some m)
      else .ok none
    match memoStep with
    | .error e => (.error e, va)
    | .ok memo =>
    let hash := g
      { recipient := recipient_key
        identifier := identifier_key
        iv := data.iv
        encrypted_owner := data.encrypted_owner
        reference :=
          if transaction_reference_key ≠ instructions_key then
            transaction_reference_key
          else 0
        is_associated_token_account :=
          public_inputs.recipient_is_associated_token_account
        memo := memo }
    if hash ≠ public_inputs.hashed_inputs then
      (.error .InputsMismatch, va)
    else
    let va1 :=
      { va with other_data :=
          { va.other_data with recipient_wallet := some recipient_key } }
    match va1.is_verified with
    | none => (.error .ComputationIsNotYetFinished, va1)
    | some false =>
      (.ok (), { va1 with state := VerificationState.Finalized })
    | some true =>
      match enforce with
      | .error e => (.error e, va1)
      | .ok () =>
        let cm := minimum_commitment_mt_index trees_count next_commitment_ptr
          (RingQueue.len queue)
        if data.timestamp ≠ public_inputs.current_time then
          (.error .InputsMismatch, va1)
        else if data.total_amount ≠ public_inputs.join_split.total_amount then
          (.error .InputsMismatch, va1)
        else if data.token_id ≠ public_inputs.join_split.token_id then
          (.error .InputsMismatch, va1)
        else if ¬ (data.commitment_index ≤ cm.1) then
          (.error .InputsMismatch, va1)
        else if data.mt_index ≠ cm.2 then
          (.error .InputsMismatch, va1)
        else
          (.ok (), { va1 with state := VerificationState.InsertNullifiers })

/-- The `for (index, input_commitment) in ... .enumerate()` loop of
`finalize_verification_send_nullifier` (proof.rs lines 546-566): a running
counter assigns tree index `0` to root-less commitments and a fresh index to
each root-carrying commitment; any commitment with tree index `≠ 0` aborts
with `FeatureNotAvailable`; at position `input_commitment_index` the reduced
nullifier hash is inserted and the loop breaks. -/
def nullifierLoop (try_insert : Nat → Except Err Unit) (ici : Nat) :
    List InputCommitment → Nat → Nat → Except Err Unit
  | [], _, _ => .ok ()
  | ic :: rest, index, counter =>
    let t := match ic.root with
      | some _ => counter
      | none => 0
    let counter' := match ic.root with
      | some _ => counter + 1
      | none => counter
    if t ≠ 0 then .error .FeatureNotAvailable
    else if index = ici then try_insert (reduce ic.nullifier_hash)
    else nullifierLoop try_insert ici rest (index + 1) counter'

/-- The wrapping `usize` subtraction `input_commitments.len() - 1`
(proof.rs line 568; integer overflow wraps in the release build):
`(n + 2^64 - 1) % 2^64`. -/
def usizeWrapSubOne (n : Nat) : Nat := (n + 2 ^ 64 - 1) % 2 ^ 64

/-- `finalize_verification_send_nullifier` (proof.rs lines 521-573).
`enforce` is the outcome of `enforce_finalize_send_instructions`;
`try_insert` the nullifier-account insertion.  The `len() - 1` comparison is
the source's wrapping `usize` subtraction. -/
def finalize_verification_send_nullifier
    (enforce : Except Err Unit) (try_insert : Nat → Except Err Unit)
    (input_commitment_index : Nat)
    (va : VerificationAccount) : Except Err Unit × VerificationAccount :=
  if va.state ≠ VerificationState.InsertNullifiers then
    (.error .InvalidAccountState, va)
  else
  match va.request with
  | .Migrate _ => (.error .FeatureNotAvailable, va)
  | .Send public_inputs =>
    match enforce with
    | .error e => (.error e, va)
    | .ok () =>
      match nullifierLoop try_insert input_commitment_index
          public_inputs.join_split.input_commitments 0 0 with
      | .error e => (.error e, va)
      | .ok () =>
        if input_commitment_index =
            usizeWrapSubOne public_inputs.join_split.input_commitments.length then
          (.ok (), { va with state := VerificationState.Finalized })
        else
          (.ok (), va)

/-- `close_verification_pdas` (proof.rs lines 937-949): close the
verification PDA and, unless it was skipped, the nullifier-duplicate PDA. -/
def close_verification_pdas (close_va close_nd : Except Err Unit)
    (skipped_nullifier_pda : Bool) : Except Err Unit :=
  match close_va with
  | .error e => .error e
  | .ok () =>
    if skipped_nullifier_pda then .ok ()
    else close_nd

/-- The outcomes of the external collaborators consumed by
`finalize_verification_transfer_lamports`, in call order. -/
structure TransferLamportsEnv where
  pda : Except Err Nat
  close_fc_va : Except Err Unit
  close_fc_nd : Except Err Unit
  transfer_subvention : Except Err Unit
  transfer_chf : Except Err Unit
  enforce : Except Err Unit
  transfer_amount_fp : Except Err Unit
  ix_count : Except Err Nat
  enforce_last_transfer : Except Err Unit
  transfer_amount_recipient : Except Err Unit
  transfer_reimburse : Except Err Unit
  transfer_network : Except Err Unit
  close_fp_va : Except Err Unit
  close_fp_nd : Except Err Unit
deriving Repr

/-- `finalize_verification_transfer_lamports` (proof.rs lines 576-706).
Returns the handler result, the final verification account and the final
commitment queue. -/
def finalize_verification_transfer_lamports
    (original_fee_payer_key recipient_key nullifier_duplicate_key : Nat)
    (env : TransferLamportsEnv)
    (queue : RQState CommitmentHashRequest)
    (va : VerificationAccount) :
    Except Err Unit × VerificationAccount × RQState CommitmentHashRequest :=
  let data := va.other_data
  let join_split := va.request.join_split_inputs
  if join_split.token_id ≠ 0 then
    (.error .InvalidAccountState, va, queue)
  else if va.state ≠ VerificationState.Finalized then
    (.error .InvalidAccountState, va, queue)
  else if original_fee_payer_key ≠ data.fee_payer then
    (.error .InvalidAccount, va, queue)
  else
  match env.pda with
  | .error e => (.error e, va, queue)
  | .ok pda =>
  if nullifier_duplicate_key ≠ pda then
    (.error .InvalidAccount, va, queue)
  else
  if va.is_verified = some false then
    -- Invalid proof: rent and escrow flow to the fee collector
    match env.close_fc_va with
    | .error e => (.error e, va, queue)
    | .ok () =>
    match (if data.skip_nullifier_pda then Except.ok () else env.close_fc_nd) with
    | .error e => (.error e, va, queue)
    | .ok () =>
    let va1 := { va with state := VerificationState.Closed }
    match env.transfer_subvention with
    | .error e => (.error e, va1, queue)
    | .ok () =>
    match env.transfer_chf with
    | .error e => (.error e, va1, queue)
    | .ok () => (.ok (), va1, queue)
  else
  let sendStep : Except Err Unit :=
    match va.request with
    | .Send public_inputs =>
      match env.enforce with
      | .error e => .error e
      | .ok () =>
        match data.recipient_wallet with
        | none => .error .Panicked
        | some recipient_wallet =>
          if recipient_key ≠ recipient_wallet then .error .InvalidAccount
          else if public_inputs.solana_pay_transfer then
            match env.transfer_amount_fp with
            | .error e => .error e
            | .ok () =>
              match env.ix_count with
              | .error e => .error e
              | .ok _ => env.enforce_last_transfer
          else
            env.transfer_amount_recipient
    | .Migrate _ => .ok ()
  match sendStep with
  | .error e => (.error e, va, queue)
  | .ok () =>
  match checkedAdd data.commitment_hash_fee_token data.proof_verification_fee with
  | .error e => (.error e, va, queue)
  | .ok _ =>
  match env.transfer_reimburse with
  | .error e => (.error e, va, queue)
  | .ok () =>
  match env.transfer_network with
  | .error e => (.error e, va, queue)
  | .ok () =>
  match close_verification_pdas env.close_fp_va env.close_fp_nd data.skip_nullifier_pda with
  | .error e => (.error e, va, queue)
  | .ok () =>
  match RingQueue.enqueue CommitmentQueue.SIZE queue
      { commitment := reduce join_split.output_commitment
        fee_version := join_split.fee_version
        min_batching_rate := data.min_batching_rate } with
  | .error e => (.error e, va, queue)
  | .ok queue' =>
    (.ok (), { va with state := VerificationState.Closed }, queue')

/-- The outcomes of the external collaborators consumed by
`finalize_verification_transfer_token`, in call order. -/
structure TransferTokenEnv where
  pda : Except Err Nat
  verify_pool : Except Err Unit
  verify_fee_collector : Except Err Unit
  close_fc_va : Except Err Unit
  close_fc_nd : Except Err Unit
  transfer_subvention : Except Err Unit
  spl_rent : Except Err Nat
  transfer_chf_rent : Except Err Unit
  enforce : Except Err Unit
  verify_recipient_token_acc : Except Err Bool
  verify_ata : Except Err Bool
  recipient_lamports : Nat
  elusiv_mint : Except Err Nat
  create_ata : Except Err Unit
  transfer_amount_fp : Except Err Unit
  ix_count : Except Err Nat
  spl_transfer_build : Except Err Unit
  enforce_last_transfer : Except Err Unit
  transfer_amount_recipient : Except Err Unit
  transfer_reimburse : Except Err Unit
  transfer_network : Except Err Unit
  close_fp_va : Except Err Unit
  close_fp_nd : Except Err Unit
  transfer_rent_refund : Except Err Unit
deriving Repr

/-- The invalid-proof branch of `finalize_verification_transfer_token`
(proof.rs lines 755-786): close the PDAs towards the fee collector, set the
state to `Closed`, then route the subvention and the hash fee plus token
account rent to the fee collector. -/
def transfer_token_invalid_proof (env : TransferTokenEnv)
    (queue : RQState CommitmentHashRequest) (va : VerificationAccount) :
    Except Err Unit × VerificationAccount × RQState CommitmentHashRequest :=
  match close_verification_pdas env.close_fc_va env.close_fc_nd
      va.other_data.skip_nullifier_pda with
  | .error e => (.error e, va, queue)
  | .ok () =>
  let va1 := { va with state := VerificationState.Closed }
  match env.transfer_subvention with
  | .error e => (.error e, va1, queue)
  | .ok () =>
  match env.spl_rent with
  | .error e => (.error e, va1, queue)
  | .ok rent =>
  match checkedAdd va.other_data.commitment_hash_fee rent with
  | .error e => (.error e, va1, queue)
  | .ok _ =>
  match env.transfer_chf_rent with
  | .error e => (.error e, va1, queue)
  | .ok () => (.ok (), va1, queue)

/-- The `if let ProofRequest::Send` block of
`finalize_verification_transfer_token` (proof.rs lines 788-874): sibling
enforcement, recipient / associated-token-account validation (with payout
redirection to the fee collector on an invalid recipient token account) and
the payout transfer; returns the associated-token-account rent
reservation. -/
def transfer_token_send_step
    (recipient_key recipient_wallet_key mint_key recipient_address : Nat)
    (env : TransferTokenEnv) (data : VerificationAccountData)
    (request : ProofRequest) : Except Err (Option Nat) :=
  match request with
  | .Send public_inputs =>
    match env.enforce with
    | .error e => .error e
    | .ok () =>
      let recipientStep : Except Err (Option Nat) :=
        if ¬ public_inputs.recipient_is_associated_token_account then
          if recipient_key ≠ recipient_address then .error .InvalidAccount
          else
            -- an invalid recipient token account only redirects the payout
            match env.verify_recipient_token_acc with
            | _ => .ok none
        else
          if recipient_wallet_key ≠ recipient_address then .error .InvalidAccount
          else
            match env.verify_ata with
            | .error e => .error e
            | .ok ata_ok =>
              if ¬ ata_ok then .error .InvalidAccount
              else if env.recipient_lamports = 0 then
                match env.elusiv_mint with
                | .error e => .error e
                | .ok mint =>
                  if mint_key ≠ mint then .error .InvalidAccount
                  else
                    match env.create_ata with
                    | .error e => .error e
                    | .ok () => .ok (some data.associated_token_account_rent)
              else .ok (some 0)
      match recipientStep with
      | .error e => .error e
      | .ok rent_token =>
        let _token_amount := wrapSub64 public_inputs.join_split.amount
          (rent_token.getD 0)
        if public_inputs.solana_pay_transfer then
          match env.transfer_amount_fp with
          | .error e => .error e
          | .ok () =>
            match env.ix_count with
            | .error e => .error e
            | .ok _ =>
              match env.spl_transfer_build with
              | .error e => .error e
              | .ok () =>
                match env.enforce_last_transfer with
                | .error e => .error e
                | .ok () => .ok rent_token
        else
          match env.transfer_amount_recipient with
          | .error e => .error e
          | .ok () => .ok rent_token
  | .Migrate _ => .ok none

/-- The common tail of `finalize_verification_transfer_token` (proof.rs lines
876-934): fee reimbursement (with checked token additions), network fee, PDA
closing, the rent refund, the commitment enqueue and the final state
write. -/
def transfer_token_payout (env : TransferTokenEnv)
    (queue : RQState CommitmentHashRequest) (va : VerificationAccount)
    (rent_token : Option Nat) :
    Except Err Unit × VerificationAccount × RQState CommitmentHashRequest :=
  let data := va.other_data
  let join_split := va.request.join_split_inputs
  match checkedAdd data.commitment_hash_fee_token data.proof_verification_fee with
  | .error e => (.error e, va, queue)
  | .ok s1 =>
  match checkedAdd s1 (rent_token.getD 0) with
  | .error e => (.error e, va, queue)
  | .ok _ =>
  match env.transfer_reimburse with
  | .error e => (.error e, va, queue)
  | .ok () =>
  match env.transfer_network with
  | .error e => (.error e, va, queue)
  | .ok () =>
  match close_verification_pdas env.close_fp_va env.close_fp_nd data.skip_nullifier_pda with
  | .error e => (.error e, va, queue)
  | .ok () =>
  match (if rent_token.isSome then
          match env.spl_rent with
          | .error e => Except.error e
          | .ok _ => env.transfer_rent_refund
         else Except.ok ()) with
  | .error e => (.error e, va, queue)
  | .ok () =>
  match RingQueue.enqueue CommitmentQueue.SIZE queue
      { commitment := reduce join_split.output_commitment
        fee_version := join_split.fee_version
        min_batching_rate := data.min_batching_rate } with
  | .error e => (.error e, va, queue)
  | .ok queue' =>
    (.ok (), { va with state := VerificationState.Closed }, queue')

/-- `finalize_verification_transfer_token` (proof.rs lines 709-935).  The
`data.recipient_wallet.option().unwrap()` on entry is modelled as `Panicked`
when the wallet is unset.  Returns the handler result, the final verification
account and the final commitment queue. -/
def finalize_verification_transfer_token
    (original_fee_payer_key original_fee_payer_account_key : Nat)
    (recipient_key recipient_wallet_key nullifier_duplicate_key mint_key : Nat)
    (env : TransferTokenEnv)
    (queue : RQState CommitmentHashRequest)
    (va : VerificationAccount) :
    Except Err Unit × VerificationAccount × RQState CommitmentHashRequest :=
  let data := va.other_data
  let join_split := va.request.join_split_inputs
  match data.recipient_wallet with
  | none => (.error .Panicked, va, queue)
  | some recipient_address =>
  let token_id := join_split.token_id
  if ¬ token_id > 0 then
    (.error .InvalidAccountState, va, queue)
  else if va.state ≠ VerificationState.Finalized then
    (.error .InvalidAccountState, va, queue)
  else if original_fee_payer_key ≠ data.fee_payer then
    (.error .InvalidAccount, va, queue)
  else if original_fee_payer_account_key ≠ data.fee_payer_account then
    (.error .InvalidAccount, va, queue)
  else
  match env.pda with
  | .error e => (.error e, va, queue)
  | .ok pda =>
  if nullifier_duplicate_key ≠ pda then
    (.error .InvalidAccount, va, queue)
  else
  match env.verify_pool with
  | .error e => (.error e, va, queue)
  | .ok () =>
  match env.verify_fee_collector with
  | .error e => (.error e, va, queue)
  | .ok () =>
  if va.is_verified = some false then
    -- Invalid proof: rent flows to the fee collector
    transfer_token_invalid_proof env queue va
  else
  match transfer_token_send_step recipient_key recipient_wallet_key mint_key
      recipient_address env data va.request with
  | .error e => (.error e, va, queue)
  | .ok rent_token =>
    transfer_token_payout env queue va rent_token

/-- Modelled from the spec: `JOIN_SPLIT_MAX_N_ARITY` (the fixed maximum arity
of a join-split statement, defined in the `types` module, not among the
sources); the concrete value is 4. -/
def JOIN_SPLIT_MAX_N_ARITY : Nat := 4

/-- `is_vec_duplicate_free` (proof.rs lines 956-958). -/
def is_vec_duplicate_free (v : List Nat) : Bool := decide v.Nodup

/-- The root-collection loop of `check_join_split_public_inputs`
(proof.rs lines 985-1009): walks the input commitments, collecting the
distinct roots, the per-commitment tree indices and the per-tree nullifier
hashes, and validates each root against the active tree
(`storage_account.is_root_valid`) or a closed tree's recorded root
(`nullifier_accounts[index].get_root()`).  Out-of-range indexing (a third
root, or a root-less first commitment) is the source's `panic`. -/
def checkRootLoop (is_root_valid : Nat → Bool) (nullifier_root : Nat → Nat)
    (active_tree_index : Nat) (tree_indices : List Nat) :
    List InputCommitment → List Nat → List Nat → List (List Nat) →
    Except Err (List Nat × List Nat × List (List Nat))
  | [], roots, tidx, nhs => .ok (roots, tidx, nhs)
  | ic :: rest, roots, tidx, nhs =>
    match ic.root with
    | some root =>
      let index := roots.length
      match tree_indices.get? index with
      | none => .error .Panicked
      | some ti =>
        if ti = active_tree_index then
          if is_root_valid (reduce root) then
            checkRootLoop is_root_valid nullifier_root active_tree_index tree_indices
              rest (roots ++ [root]) (tidx ++ [index]) (nhs ++ [[ic.nullifier_hash]])
          else .error .InvalidMerkleRoot
        else
          if reduce root = nullifier_root index then
            checkRootLoop is_root_valid nullifier_root active_tree_index tree_indices
              rest (roots ++ [root]) (tidx ++ [index]) (nhs ++ [[ic.nullifier_hash]])
          else .error .InvalidMerkleRoot
    | none =>
      match nhs with
      | [] => .error .Panicked
      | h :: t =>
        checkRootLoop is_root_valid nullifier_root active_tree_index tree_indices
          rest roots (tidx ++ [0]) ((h ++ [ic.nullifier_hash]) :: t)

/-- The inner `j` loop of the duplicate-nullifier check (proof.rs lines
1020-1028): a nullifier hash shared by commitments `i ≠ j` is allowed only
across distinct trees. -/
def dupTreeCheckJ (ics : List InputCommitment) (tidx : List Nat)
    (i nh_i : Nat) : List Nat → Except Err Unit
  | [] => .ok ()
  | j :: js =>
    if i = j then dupTreeCheckJ ics tidx i nh_i js
    else
      match ics.get? j with
      | none => .error .Panicked
      | some icj =>
        if nh_i = icj.nullifier_hash then
          match tidx.get? i, tidx.get? j with
          | some ti, some tj =>
            if ti ≠ tj then dupTreeCheckJ ics tidx i nh_i js
            else .error .InvalidPublicInputs
          | _, _ => .error .Panicked
        else dupTreeCheckJ ics tidx i nh_i js

/-- The outer loop of the nullifier checks (proof.rs lines 1018-1036):
for every input commitment, the duplicate check above followed by
`can_insert_nullifier_hash` on the commitment's tree. -/
def nullifierChecksLoop (can_insert : Nat → Nat → Except Err Bool)
    (ics : List InputCommitment) (tidx : List Nat) :
    List (Nat × InputCommitment) → Except Err Unit
  | [] => .ok ()
  | (i, ic) :: rest =>
    match dupTreeCheckJ ics tidx i ic.nullifier_hash (List.range ics.length) with
    | .error e => .error e
    | .ok () =>
      match tidx.get? i with
      | none => .error .Panicked
      | some ti =>
        match can_insert ti (reduce ic.nullifier_hash) with
        | .error e => .error e
        | .ok b =>
          if b then nullifierChecksLoop can_insert ics tidx rest
          else .error .CouldNotInsertNullifier

/-- `check_join_split_public_inputs` (proof.rs lines 972-1039).
`is_root_valid` is the storage account's root check; `nullifier_root` and
`can_insert` are the reads of the two nullifier accounts; `tree_indices` is
the `[u32; MAX_MT_COUNT]` instruction argument. -/
def check_join_split_public_inputs (is_root_valid : Nat → Bool)
    (nullifier_root : Nat → Nat) (can_insert : Nat → Nat → Except Err Bool)
    (active_tree_index : Nat) (tree_indices : List Nat)
    (public_inputs : JoinSplitPublicInputs) : Except Err Unit :=
  if public_inputs.output_commitment = ZERO_COMMITMENT_RAW then
    .error .InvalidPublicInputs
  else
  match public_inputs.input_commitments with
  | [] => .error .Panicked
  | ic0 :: _ =>
  if ic0.root.isNone then .error .InvalidPublicInputs
  else if ¬ public_inputs.input_commitments.length ≤ JOIN_SPLIT_MAX_N_ARITY then
    .error .InvalidPublicInputs
  else
  match checkRootLoop is_root_valid nullifier_root active_tree_index tree_indices
      public_inputs.input_commitments [] [] [] with
  | .error e => .error e
  | .ok (roots, tidx, _) =>
  if ¬ (¬ roots.isEmpty ∧ roots.length ≤ MAX_MT_COUNT) then
    .error .InvalidPublicInputs
  else if ¬ tree_indices.length ≥ roots.length then
    .error .InvalidPublicInputs
  else if roots.length > 1 ∧ ¬ is_vec_duplicate_free tree_indices then
    .error .InvalidInstructionData
  else
    nullifierChecksLoop can_insert public_inputs.input_commitments tidx
      public_inputs.input_commitments.enum

/-! ### Concrete sample values (used as inputs by witness theorems) -/

/-- A one-commitment join-split statement. -/
def sampleJoinSplit : JoinSplitPublicInputs :=
  { input_commitments := [{ root := some 3, nullifier_hash := 11 }]
    output_commitment := 1
    fee_version := 0
    amount := 100
    fee := 10
    token_id := 0 }

/-- A join-split statement whose second input commitment carries its own
root, i.e. references a second distinct Merkle tree. -/
def sampleJoinSplitTwoRoots : JoinSplitPublicInputs :=
  { input_commitments := [{ root := some 3, nullifier_hash := 11 },
                          { root := some 5, nullifier_hash := 12 }]
    output_commitment := 1
    fee_version := 0
    amount := 100
    fee := 10
    token_id := 0 }

/-- A Send statement around `sampleJoinSplit`. -/
def sampleSend : SendPublicInputs :=
  { join_split := sampleJoinSplit
    recipient_is_associated_token_account := false
    hashed_inputs := 5
    current_time := 7
    solana_pay_transfer := false }

/-- A Send statement around `sampleJoinSplitTwoRoots`. -/
def sampleSendTwoRoots : SendPublicInputs :=
  { join_split := sampleJoinSplitTwoRoots
    recipient_is_associated_token_account := false
    hashed_inputs := 5
    current_time := 7
    solana_pay_transfer := false }

/-- Sample `other_data` with a choice of recipient wallet. -/
def sampleOtherData (recipient_wallet : Option Nat) : VerificationAccountData :=
  { fee_payer := 1
    fee_payer_account := 2
    recipient_wallet := recipient_wallet
    skip_nullifier_pda := false
    min_batching_rate := 0
    token_id := 0
    subvention := 3
    network_fee := 4
    commitment_hash_fee := 5
    commitment_hash_fee_token := 6
    proof_verification_fee := 7
    associated_token_account_rent := 0 }

/-- A sample verification account in a chosen state with a chosen verdict and
recipient wallet, holding the `sampleSend` request. -/
def sampleVA (s : VerificationState) (verdict : Option Bool)
    (recipient_wallet : Option Nat) : VerificationAccount :=
  { state := s
    vkey_id := 0
    request := .Send sampleSend
    other_data := sampleOtherData recipient_wallet
    is_verified := verdict
    proof_a := 0
    proof_b := 0
    proof_c := 0 }

/-- Like `sampleVA` but holding the two-root request. -/
def sampleVATwoRoots (s : VerificationState) (verdict : Option Bool) :
    VerificationAccount :=
  { state := s
    vkey_id := 0
    request := .Send sampleSendTwoRoots
    other_data := sampleOtherData none
    is_verified := verdict
    proof_a := 0
    proof_b := 0
    proof_c := 0 }

/-- Like `sampleVA` but with a chosen declared fee in the join-split. -/
def sampleVAFee (fee : Nat) (s : VerificationState) : VerificationAccount :=
  { sampleVA s none none with
      request := .Send { sampleSend with
        join_split := { sampleJoinSplit with fee := fee } } }

/-- An all-successful environment for `init_verification_transfer_fee`; the
resulting minimum fee is `(6 + 7 + 4) - 3 = 14`. -/
def sampleFeeEnv : TransferFeeEnv :=
  { governor_fee_version := 0
    min_batching_rate := 0
    price := .ok ()
    subvention := .ok 3
    proof_verification_fee := .ok 7
    commitment_hash_fee := 5
    commitment_hash_fee_token := .ok 6
    network_fee := 4
    verify_pool := .ok ()
    verify_fee_collector := .ok ()
    spl_rent := .ok 2
    rent_into_token := .ok 2
    transfer_hash_fee := .ok ()
    transfer_subvention := .ok ()
    verify_token_acc := .ok true }

/-- An all-successful environment for
`finalize_verification_transfer_lamports` whose nullifier-duplicate PDA is
21. -/
def sampleLamportsEnv : TransferLamportsEnv :=
  { pda := .ok 21
    close_fc_va := .ok ()
    close_fc_nd := .ok ()
    transfer_subvention := .ok ()
    transfer_chf := .ok ()
    enforce := .ok ()
    transfer_amount_fp := .ok ()
    ix_count := .ok 3
    enforce_last_transfer := .ok ()
    transfer_amount_recipient := .ok ()
    transfer_reimburse := .ok ()
    transfer_network := .ok ()
    close_fp_va := .ok ()
    close_fp_nd := .ok () }

/-- An all-successful environment for
`finalize_verification_transfer_token`. -/
def sampleTokenEnv : TransferTokenEnv :=
  { pda := .ok 21
    verify_pool := .ok ()
    verify_fee_collector := .ok ()
    close_fc_va := .ok ()
    close_fc_nd := .ok ()
    transfer_subvention := .ok ()
    spl_rent := .ok 2
    transfer_chf_rent := .ok ()
    enforce := .ok ()
    verify_recipient_token_acc := .ok true
    verify_ata := .ok true
    recipient_lamports := 1
    elusiv_mint := .ok 77
    create_ata := .ok ()
    transfer_amount_fp := .ok ()
    ix_count := .ok 3
    spl_transfer_build := .ok ()
    enforce_last_transfer := .ok ()
    transfer_amount_recipient := .ok ()
    transfer_reimburse := .ok ()
    transfer_network := .ok ()
    close_fp_va := .ok ()
    close_fp_nd := .ok ()
    transfer_rent_refund := .ok () }

/-- Sample `FinalizeSendData` matching `sampleSend` against empty storage. -/
def sampleFinalizeData : FinalizeSendData :=
  { timestamp := 7
    total_amount := 110
    token_id := 0
    mt_index := 0
    commitment_index := 0
    iv := 0
    encrypted_owner := 0 }

/-- An empty commitment queue. -/
def sampleQueue : RQState CommitmentHashRequest :=
  RQState.empty CommitmentHashRequest
    { commitment := 0, fee_version := 0, min_batching_rate := 0 }

/-! ### Lemmas about the ring queue -/

theorem mod_two_intervals {a S : Nat} (h : a < 2 * S) :
    a % S = if a < S then a else a - S := by
  split
  · exact Nat.mod_eq_of_lt (by assumption)
  · rw [Nat.mod_eq_sub_mod (by omega)]
    exact Nat.mod_eq_of_lt (by omega)

theorem trueModularLen_eq {S h t : Nat} (hh : h < S) (ht : t < S) :
    trueModularLen S h t = if h ≤ t then t - h else t + S - h := by
  unfold trueModularLen
  rw [mod_two_intervals (by omega)]
  split_ifs <;> omega

theorem trueModularLen_lt {S h t : Nat} (hS : 0 < S) :
    trueModularLen S h t < S :=
  Nat.mod_lt _ hS

theorem trueModularLen_zero_iff {S h t : Nat} (hh : h < S) (ht : t < S) :
    trueModularLen S h t = 0 ↔ h = t := by
  rw [trueModularLen_eq hh ht]
  split_ifs <;> omega

theorem mod_head_add_inj {S h i j : Nat} (hh : h < S) (hi : i < S) (hj : j < S)
    (he : (h + i) % S = (h + j) % S) : i = j := by
  rw [mod_two_intervals (by omega), mod_two_intervals (by omega)] at he
  split_ifs at he <;> omega

theorem mod_head_add_len {S h t : Nat} (hh : h < S) (ht : t < S) :
    (h + trueModularLen S h t) % S = t := by
  have hb : trueModularLen S h t < S := trueModularLen_lt (by omega)
  rw [mod_two_intervals (show h + trueModularLen S h t < 2 * S by omega)]
  rw [trueModularLen_eq hh ht] at hb ⊢
  split_ifs <;> omega

theorem toList_length {S : Nat} (q : RQState α) :
    (q.toList S).length = trueModularLen S q.head q.tail := by
  simp [RQState.toList]

theorem toList_eq_nil_iff {S : Nat} (q : RQState α) (hinv : RQInv S q) :
    q.toList S = [] ↔ q.head = q.tail := by
  obtain ⟨hh, ht⟩ := hinv
  rw [← List.length_eq_zero, toList_length, trueModularLen_zero_iff hh ht]

theorem enqueue_not_full {S : Nat} (q : RQState α) (v : α)
    (hnf : (q.tail + 1) % S ≠ q.head) :
    RingQueue.enqueue S q v =
      .ok { head := q.head, tail := (q.tail + 1) % S,
            data := fun i => if i = q.tail then v else q.data i } := by
  simp [RingQueue.enqueue, hnf]

theorem enqueue_full {S : Nat} (q : RQState α) (v : α)
    (hf : (q.tail + 1) % S = q.head) :
    RingQueue.enqueue S q v = .error .QueueIsFull := by
  simp [RingQueue.enqueue, hf]

theorem full_iff_len {S : Nat} (q : RQState α) (hS : 0 < S) (hinv : RQInv S q) :
    (q.tail + 1) % S = q.head ↔
      trueModularLen S q.head q.tail = S - 1 := by
  obtain ⟨hh, ht⟩ := hinv
  rw [trueModularLen_eq hh ht, mod_two_intervals (by omega)]
  split_ifs <;> omega

theorem enqueue_toList {S : Nat} (q : RQState α) (v : α)
    (hS : 0 < S) (hinv : RQInv S q) (hnf : (q.tail + 1) % S ≠ q.head) :
    ∃ q', RingQueue.enqueue S q v = .ok q' ∧ RQInv S q' ∧
      q'.toList S = q.toList S ++ [v] := by
  obtain ⟨hh, ht⟩ := hinv
  refine ⟨_, enqueue_not_full q v hnf, ⟨hh, Nat.mod_lt _ hS⟩, ?_⟩
  have hnS : trueModularLen S q.head q.tail < S := trueModularLen_lt hS
  have hmod := mod_two_intervals (a := q.tail + 1) (S := S) (by omega)
  have hlen : trueModularLen S q.head ((q.tail + 1) % S) =
      trueModularLen S q.head q.tail + 1 := by
    rw [trueModularLen_eq hh (Nat.mod_lt _ hS), hmod, trueModularLen_eq hh ht]
    rw [hmod] at hnf
    split_ifs at hnf ⊢ <;> omega
  have hwrite : (q.head + trueModularLen S q.head q.tail) % S = q.tail :=
    mod_head_add_len hh ht
  simp only [RQState.toList, hlen, List.range_succ, List.map_append,
    List.map_cons, List.map_nil]
  have h1 : List.map
      (fun i => if (q.head + i) % S = q.tail then v else q.data ((q.head + i) % S))
      (List.range (trueModularLen S q.head q.tail)) =
      List.map (fun i => q.data ((q.head + i) % S))
      (List.range (trueModularLen S q.head q.tail)) := by
    apply List.map_congr_left
    intro i hi
    have hir := List.mem_range.mp hi
    have hiS : i < S := lt_trans hir hnS
    have hne : (q.head + i) % S ≠ q.tail := by
      intro hcon
      exact absurd (mod_head_add_inj hh hiS hnS (hcon.trans hwrite.symm))
        (by omega)
    simp [hne]
  rw [h1]
  simp [hwrite]

theorem dequeue_empty {S : Nat} (q : RQState α) (he : q.head = q.tail) :
    RingQueue.dequeue_first S q = .error .QueueIsEmpty := by
  simp [RingQueue.dequeue_first, he]

theorem view_first_empty {S : Nat} (q : RQState α) (he : q.head = q.tail) :
    RingQueue.view_first S q = .error .QueueIsEmpty := by
  simp [RingQueue.view_first, RingQueue.view, he]

theorem dequeue_toList {S : Nat} (q : RQState α)
    (hS : 0 < S) (hinv : RQInv S q) (hne : q.head ≠ q.tail) :
    ∃ q', RingQueue.dequeue_first S q = .ok (q.data q.head, q') ∧ RQInv S q' ∧
      q.toList S = q.data q.head :: q'.toList S := by
  obtain ⟨hh, ht⟩ := hinv
  refine ⟨{ q with head := (q.head + 1) % S },
    by simp [RingQueue.dequeue_first, hne], ⟨Nat.mod_lt _ hS, ht⟩, ?_⟩
  have hn : 1 ≤ trueModularLen S q.head q.tail := by
    rcases Nat.eq_zero_or_pos (trueModularLen S q.head q.tail) with h0 | h1
    · exact absurd ((trueModularLen_zero_iff hh ht).mp h0) hne
    · exact h1
  have hmod := mod_two_intervals (a := q.head + 1) (S := S) (by omega)
  have hlen : trueModularLen S ((q.head + 1) % S) q.tail =
      trueModularLen S q.head q.tail - 1 := by
    rw [trueModularLen_eq (Nat.mod_lt _ hS) ht, hmod, trueModularLen_eq hh ht]
    split_ifs <;> omega
  obtain ⟨m, hm⟩ : ∃ m, trueModularLen S q.head q.tail = m + 1 :=
    ⟨trueModularLen S q.head q.tail - 1, by omega⟩
  simp only [RQState.toList, hlen, hm]
  simp only [Nat.add_sub_cancel, List.range_succ_eq_map, List.map_cons,
    List.map_map]
  have e0 : (q.head + 0) % S = q.head := by
    simp [Nat.mod_eq_of_lt hh]
  rw [e0]
  refine congrArg _ ?_
  apply List.map_congr_left
  intro i _
  simp only [Function.comp]
  rw [Nat.mod_add_mod]
  have : q.head + Nat.succ i = q.head + 1 + i := by omega
  rw [this]

theorem modelRun_outs {cap : Nat} :
    ∀ (ops : List (QOp α)) (l outs l' outs' : List α),
    modelRun cap l outs ops = some (l', outs') →
    outs' ++ l' = outs ++ l ++ enqueuedValues ops := by
  intro ops
  induction ops with
  | nil =>
    intro l outs l' outs' h
    simp [modelRun] at h
    simp [enqueuedValues, h.1, h.2]
  | cons op ops ih =>
    intro l outs l' outs' h
    cases op with
    | enq v =>
      simp only [modelRun] at h
      split at h
      · have := ih _ _ _ _ h
        simp only [enqueuedValues]
        rw [this]
        simp
      · cases h
    | deq =>
      simp only [modelRun] at h
      match hl : l with
      | [] => exact Option.noConfusion h
      | x :: xs =>
        have := ih _ _ _ _ h
        simp only [enqueuedValues]
        rw [this]
        simp

theorem runRing_simulates {S : Nat} (hS : 0 < S) :
    ∀ (ops : List (QOp α)) (q : RQState α) (outs l' outs' : List α),
    RQInv S q →
    modelRun (S - 1) (q.toList S) outs ops = some (l', outs') →
    ∃ q', runRing S q outs ops = some (q', outs') ∧ RQInv S q' ∧
      q'.toList S = l' := by
  intro ops
  induction ops with
  | nil =>
    intro q outs l' outs' hinv h
    simp [modelRun] at h
    exact ⟨q, by simp [runRing, h.2], hinv, h.1⟩
  | cons op ops ih =>
    intro q outs l' outs' hinv h
    cases op with
    | enq v =>
      simp only [modelRun] at h
      split at h
      · have hnf : (q.tail + 1) % S ≠ q.head := by
          intro hfull
          have hfl := (full_iff_len q hS hinv).mp hfull
          have := toList_length (S := S) q
          omega
        obtain ⟨q1, henq, hinv1, htl1⟩ := enqueue_toList q v hS hinv hnf
        obtain ⟨q', hrun, hinv', htl'⟩ := ih q1 outs l' outs' hinv1
          (by rw [htl1]; exact h)
        exact ⟨q', by simp only [runRing, henq]; exact hrun, hinv', htl'⟩
      · cases h
    | deq =>
      simp only [modelRun] at h
      cases hl : q.toList S with
      | nil => rw [hl] at h; exact Option.noConfusion h
      | cons x xs =>
        rw [hl] at h
        have hne : q.head ≠ q.tail := by
          intro he
          rw [(toList_eq_nil_iff q hinv).mpr he] at hl
          cases hl
        obtain ⟨q1, hdeq, hinv1, htl1⟩ := dequeue_toList q hS hinv hne
        rw [hl] at htl1
        obtain ⟨hx, hxs⟩ : q.data q.head = x ∧ q1.toList S = xs := by
          cases htl1; exact ⟨rfl, rfl⟩
        obtain ⟨q', hrun, hinv', htl'⟩ := ih q1 (outs ++ [x]) l' outs' hinv1
          (by rw [hxs]; exact h)
        refine ⟨q', ?_, hinv', htl'⟩
        simp only [runRing, hdeq, hx]
        exact hrun

theorem empty_inv {S : Nat} (hS : 0 < S) (d : α) :
    RQInv S (RQState.empty α d) := ⟨hS, hS⟩

theorem empty_toList {S : Nat} (d : α) :
    (RQState.empty α d).toList S = [] := by
  simp [RQState.toList, RQState.empty, trueModularLen]

theorem enqueueN_spec {S : Nat} (f : Nat → α) (d : α) :
    ∀ n, n < S →
    ∃ q, enqueueN S f (RQState.empty α d) n = some q ∧
      q.head = 0 ∧ q.tail = n ∧ ∀ i, i < n → q.data i = f i := by
  intro n
  induction n with
  | zero =>
    intro _
    exact ⟨RQState.empty α d, rfl, rfl, rfl, by omega⟩
  | succ m ih =>
    intro hm
    obtain ⟨q, hq, hh, ht, hd⟩ := ih (by omega)
    have hnf : (q.tail + 1) % S ≠ q.head := by
      rw [hh, ht, Nat.mod_eq_of_lt hm]
      omega
    refine ⟨{ head := q.head, tail := (q.tail + 1) % S,
              data := fun i => if i = q.tail then f m else q.data i },
            ?_, hh, ?_, ?_⟩
    · simp only [enqueueN, hq, enqueue_not_full q (f m) hnf]
    · show (q.tail + 1) % S = m + 1
      rw [ht]
      exact Nat.mod_eq_of_lt hm
    · intro i hi
      show (if i = q.tail then f m else q.data i) = f i
      rw [ht]
      rcases Nat.lt_or_ge i m with him | him
      · have hne : i ≠ m := by omega
        simp [hne, hd i him]
      · have heq : i = m := by omega
        simp [heq]

/-! ### Claim theorems: ring queue -/

/-- C1: the claim states that each generated queue's `SIZE` constant equals
its declared element count (240 for `CommitmentQueue`, 128 for
`BaseCommitmentQueue`), so that enqueue succeeds exactly `count - 1` times
from empty and always writes below the declared array length.  Evaluating the
code: the macro computes `SIZE = count * element-byte-size`, giving 9600 and
5120; starting from an empty `CommitmentQueue` the 240th enqueue still
succeeds (the claimed capacity is 239) and the 241st successful enqueue
writes its element at data index 240, outside the declared 240-element
array. -/
theorem claim_C1_queue_size_code_evaluation :
    CommitmentQueue.SIZE = 9600 ∧ BaseCommitmentQueue.SIZE = 5120 ∧
    CommitmentQueue.SIZE ≠ 240 ∧ BaseCommitmentQueue.SIZE ≠ 128 ∧
    ∃ q, enqueueN CommitmentQueue.SIZE
        (fun i => { commitment := i, fee_version := 0, min_batching_rate := 0 })
        (RQState.empty CommitmentHashRequest
          { commitment := 0, fee_version := 0, min_batching_rate := 0 })
        241 = some q ∧
      q.tail = 241 ∧
      q.data 240 = { commitment := 240, fee_version := 0, min_batching_rate := 0 } := by
  refine ⟨by decide, by decide, by decide, by decide, ?_⟩
  obtain ⟨q, hq, _, ht, hd⟩ := enqueueN_spec
    (S := CommitmentQueue.SIZE)
    (fun i => ({ commitment := i, fee_version := 0,
                 min_batching_rate := 0 } : CommitmentHashRequest))
    ({ commitment := 0, fee_version := 0,
       min_batching_rate := 0 } : CommitmentHashRequest)
    241 (by decide)
  exact ⟨q, hq, ht, hd 240 (by omega)⟩

/-- C2: the claim states that `RingQueue::len()` returns the true modular
length `(tail - head + SIZE) % SIZE` for every reachable `(head, tail)` pair.
Evaluating the code on the source's own `SIZE = 7` test instance: the state
reached from the empty queue by six enqueues, one dequeue and one more
enqueue has `head = 1`, `tail = 0`; `len()` returns `head + tail = 1` while
the true modular length is 6. -/
theorem claim_C2_len_code_evaluation :
    (runRing 7 (RQState.empty Nat 0) []
      [QOp.enq 1, QOp.enq 2, QOp.enq 3, QOp.enq 4, QOp.enq 5, QOp.enq 6,
       QOp.deq, QOp.enq 7]).map
      (fun p => (p.1.head, p.1.tail, RingQueue.len p.1)) = some (1, 0, 1) ∧
    trueModularLen 7 1 0 = 6 ∧ (1 : Nat) ≠ 6 := by
  refine ⟨by decide, by decide, by decide⟩

/-- C3: FIFO behaviour of the ring queue.  For every operation sequence from
the empty queue that stays within the logical capacity `SIZE - 1` (expressed
by the list-model run with capacity `SIZE - 1` succeeding), the ring queue
produces exactly the model's outputs: the dequeued values followed by the
remaining contents are the enqueued values in enqueue order.  Enqueueing when
`(tail + 1) % SIZE = head` fails with `QueueIsFull`; dequeueing or viewing
when `head = tail` fails with `QueueIsEmpty`. -/
theorem claim_C3_fifo {α : Type} (S : Nat) (hS : 1 ≤ S) :
    (∀ (d : α) (ops : List (QOp α)) (l' outs' : List α),
      modelRun (S - 1) [] [] ops = some (l', outs') →
      ∃ q', runRing S (RQState.empty α d) [] ops = some (q', outs') ∧
        q'.toList S = l' ∧ outs' ++ l' = enqueuedValues ops) ∧
    (∀ (q : RQState α) (v : α), (q.tail + 1) % S = q.head →
      RingQueue.enqueue S q v = .error .QueueIsFull) ∧
    (∀ q : RQState α, q.head = q.tail →
      RingQueue.dequeue_first S q = .error .QueueIsEmpty ∧
      RingQueue.view_first S q = .error .QueueIsEmpty) := by
  refine ⟨?_, ?_, ?_⟩
  · intro d ops l' outs' h
    obtain ⟨q', hrun, hinv', htl'⟩ := runRing_simulates (show 0 < S by omega)
      ops (RQState.empty α d) [] l' outs' (empty_inv (by omega) d)
      (by rw [empty_toList]; exact h)
    refine ⟨q', hrun, htl', ?_⟩
    have := modelRun_outs ops [] [] l' outs' h
    simpa using this
  · intro q v hf
    exact enqueue_full q v hf
  · intro q he
    exact ⟨dequeue_empty q he, view_first_empty q he⟩

/-- Witness for C3 at `S = 7` with the sequence
enqueue 10, enqueue 20, dequeue, dequeue. -/
theorem claim_C3_fifo_witness :
    (modelRun 6 ([] : List Nat) []
        [QOp.enq 10, QOp.enq 20, QOp.deq, QOp.deq] = some ([], [10, 20])) ∧
    (∃ q', runRing 7 (RQState.empty Nat 0) []
        [QOp.enq 10, QOp.enq 20, QOp.deq, QOp.deq] = some (q', [10, 20]) ∧
      q'.toList 7 = [] ∧
      [10, 20] ++ ([] : List Nat) =
        enqueuedValues [QOp.enq 10, QOp.enq 20, QOp.deq, QOp.deq]) := by
  refine ⟨by decide, ?_⟩
  exact (claim_C3_fifo 7 (by decide)).1 0
    [QOp.enq 10, QOp.enq 20, QOp.deq, QOp.deq] [] [10, 20] (by decide)

/-! ### Claim theorems: verification state machine -/

/-- C4 (amended): every proof-lifecycle handler succeeds only in its
documented precondition state, and a wrong-state call always fails with the
account unchanged.  The failure code is `InvalidAccountState` for
`init_verification_transfer_fee`, `init_verification_proof`,
`finalize_verification_send`, `finalize_verification_send_nullifier` and
`finalize_verification_transfer_lamports` (whose guards before the state
guard also raise `InvalidAccountState`); `compute_verification` raises
`InvalidAccountState` only when its earlier guards (vkey frozen, vkey-id
match, verdict unset) pass, and `finalize_verification_transfer_token` only
when the recipient wallet is set (it panics on `unwrap` otherwise).  After
`init_verification_proof` succeeds once, a second call fails with
`InvalidAccountState`. -/
theorem claim_C4_state_preconditions :
    (∀ (fp fpt : Nat) (env : TransferFeeEnv) (va : VerificationAccount),
      ((init_verification_transfer_fee fp fpt env va).1 = .ok () →
        va.state = VerificationState.None) ∧
      (va.state ≠ VerificationState.None →
        init_verification_transfer_fee fp fpt env va =
          (.error .InvalidAccountState, va))) ∧
    (∀ (fp : Nat) (proof : Proof) (va : VerificationAccount),
      ((init_verification_proof fp proof va).1 = .ok () →
        va.state = VerificationState.FeeTransferred) ∧
      (va.state ≠ VerificationState.FeeTransferred →
        init_verification_proof fp proof va = (.error .InvalidAccountState, va)) ∧
      ((init_verification_proof fp proof va).1 = .ok () →
        (init_verification_proof fp proof
            (init_verification_proof fp proof va).2).1 =
          .error .InvalidAccountState)) ∧
    (∀ (frozen : Bool) (vid : Nat)
        (stepper : Except Err (Except Err (Option Bool)))
        (va : VerificationAccount),
      ((compute_verification frozen vid stepper va).1 = .ok () →
        (va.state = VerificationState.None ∨
         va.state = VerificationState.ProofSetup)) ∧
      (¬ (va.state = VerificationState.None ∨
          va.state = VerificationState.ProofSetup) →
        (∃ e, compute_verification frozen vid stepper va = (.error e, va)) ∧
        (frozen = true → va.vkey_id = vid → va.is_verified = none →
          compute_verification frozen vid stepper va =
            (.error .InvalidAccountState, va)))) ∧
    (∀ g r i tr ik memo enforce tc ptr (queue : RQState CommitmentHashRequest)
        data um (va : VerificationAccount),
      ((finalize_verification_send g r i tr ik memo enforce tc ptr queue
          data um va).1 = .ok () →
        va.state = VerificationState.ProofSetup) ∧
      (va.state ≠ VerificationState.ProofSetup →
        finalize_verification_send g r i tr ik memo enforce tc ptr queue
          data um va = (.error .InvalidAccountState, va))) ∧
    (∀ enforce try_ins ici (va : VerificationAccount),
      ((finalize_verification_send_nullifier enforce try_ins ici va).1 =
          .ok () →
        va.state = VerificationState.InsertNullifiers) ∧
      (va.state ≠ VerificationState.InsertNullifiers →
        finalize_verification_send_nullifier enforce try_ins ici va =
          (.error .InvalidAccountState, va))) ∧
    (∀ ofp r nd (env : TransferLamportsEnv)
        (queue : RQState CommitmentHashRequest) (va : VerificationAccount),
      ((finalize_verification_transfer_lamports ofp r nd env queue va).1 =
          .ok () →
        va.state = VerificationState.Finalized) ∧
      (va.state ≠ VerificationState.Finalized →
        finalize_verification_transfer_lamports ofp r nd env queue va =
          (.error .InvalidAccountState, va, queue))) ∧
    (∀ ofp ofpa r rw nd mint (env : TransferTokenEnv)
        (queue : RQState CommitmentHashRequest) (va : VerificationAccount),
      ((finalize_verification_transfer_token ofp ofpa r rw nd mint env queue
          va).1 = .ok () →
        va.state = VerificationState.Finalized) ∧
      (va.state ≠ VerificationState.Finalized →
        (∃ e, finalize_verification_transfer_token ofp ofpa r rw nd mint env
            queue va = (.error e, va, queue)) ∧
        (va.other_data.recipient_wallet.isSome →
          finalize_verification_transfer_token ofp ofpa r rw nd mint env
            queue va = (.error .InvalidAccountState, va, queue)))) := by
  refine ⟨?_, ?_, ?_, ?_, ?_, ?_, ?_⟩
  · intro fp fpt env va
    constructor
    · intro hok
      by_contra hne
      simp only [init_verification_transfer_fee] at hok
      repeat' split at hok <;> try simp_all
    · intro hne
      simp [init_verification_transfer_fee, hne]
  · intro fp proof va
    refine ⟨?_, ?_, ?_⟩
    · intro hok
      by_contra hne
      simp [init_verification_proof, hne] at hok
    · intro hne
      simp [init_verification_proof, hne]
    · intro hok
      have hst : va.state = VerificationState.FeeTransferred := by
        by_contra hne
        simp [init_verification_proof, hne] at hok
      have hv : ¬ va.is_verified.isSome := by
        intro hv
        simp [init_verification_proof, hst, hv] at hok
      have hfp : va.other_data.fee_payer = fp := by
        by_contra hne
        simp [init_verification_proof, hst, hv, hne] at hok
      simp [init_verification_proof, hst, hv, hfp]
  · intro frozen vid stepper va
    constructor
    · intro hok
      by_contra hne
      simp only [compute_verification] at hok
      repeat' split at hok <;> try simp_all
    · intro hne
      constructor
      · by_cases h1 : frozen = true
        · by_cases h2 : va.vkey_id = vid
          · by_cases h3 : va.is_verified.isSome
            · exact ⟨.ComputationIsAlreadyFinished,
                by simp [compute_verification, h1, h2, h3]⟩
            · exact ⟨.InvalidAccountState,
                by simp [compute_verification, h1, h2, h3, hne]⟩
          · exact ⟨.InvalidAccount, by simp [compute_verification, h1, h2]⟩
        · exact ⟨.InvalidAccount, by simp [compute_verification, h1]⟩
      · intro hfr hid hv
        simp [compute_verification, hfr, hid, hv, hne]
  · intro g r i tr ik memo enforce tc ptr queue data um va
    constructor
    · intro hok
      by_contra hne
      simp only [finalize_verification_send] at hok
      repeat' split at hok <;> try simp_all
    · intro hne
      simp [finalize_verification_send, hne]
  · intro enforce try_ins ici va
    constructor
    · intro hok
      by_contra hne
      simp only [finalize_verification_send_nullifier] at hok
      repeat' split at hok <;> try simp_all
    · intro hne
      simp [finalize_verification_send_nullifier, hne]
  · intro ofp r nd env queue va
    constructor
    · intro hok
      by_contra hne
      simp only [finalize_verification_transfer_lamports] at hok
      repeat' split at hok <;> try simp_all
    · intro hne
      simp [finalize_verification_transfer_lamports, hne]
  · intro ofp ofpa r rw nd mint env queue va
    constructor
    · intro hok
      by_contra hne
      simp only [finalize_verification_transfer_token] at hok
      repeat' split at hok <;> try simp_all
    · intro hne
      constructor
      · cases hw : va.other_data.recipient_wallet with
        | none =>
          exact ⟨.Panicked, by simp [finalize_verification_transfer_token, hw]⟩
        | some w =>
          exact ⟨.InvalidAccountState,
            by simp [finalize_verification_transfer_token, hw, hne]⟩
      · intro hsome
        obtain ⟨w, hw⟩ := Option.isSome_iff_exists.mp hsome
        simp [finalize_verification_transfer_token, hw, hne]

/-- C4 counterexample: the claim as stated says a handler called outside its
precondition state fails with `InvalidAccountState`.  `compute_verification`
on a `Finalized` account (vkey frozen, matching id) fails with
`ComputationIsAlreadyFinished` instead, because the verdict-unset guard fires
before the state guard. -/
theorem claim_C4_counterexample :
    compute_verification true 0 (.ok (.ok none))
        (sampleVA .Finalized (some true) none) =
      (.error .ComputationIsAlreadyFinished,
       sampleVA .Finalized (some true) none) ∧
    (sampleVA .Finalized (some true) none).state ≠ VerificationState.None ∧
    (sampleVA .Finalized (some true) none).state ≠
      VerificationState.ProofSetup ∧
    Err.ComputationIsAlreadyFinished ≠ Err.InvalidAccountState :=
  ⟨by decide, by decide, by decide, by decide⟩

/-- Witness for C4 at a concrete wrong-state call of
`init_verification_proof`. -/
theorem claim_C4_witness :
    (sampleVA .Closed none none).state ≠ VerificationState.FeeTransferred ∧
    init_verification_proof 1 { a := 0, b := 0, c := 0 }
        (sampleVA .Closed none none) =
      (.error .InvalidAccountState, sampleVA .Closed none none) := by
  refine ⟨by decide, ?_⟩
  exact (claim_C4_state_preconditions.2.1 1 { a := 0, b := 0, c := 0 }
    (sampleVA .Closed none none)).2.1 (by decide)

theorem transfer_token_invalid_is_verified (env : TransferTokenEnv)
    (queue : RQState CommitmentHashRequest) (va : VerificationAccount) :
    (transfer_token_invalid_proof env queue va).2.1.is_verified =
      va.is_verified := by
  simp only [transfer_token_invalid_proof]
  (repeat' split) <;> rfl

theorem transfer_token_payout_is_verified (env : TransferTokenEnv)
    (queue : RQState CommitmentHashRequest) (va : VerificationAccount)
    (rent_token : Option Nat) :
    (transfer_token_payout env queue va rent_token).2.1.is_verified =
      va.is_verified := by
  simp only [transfer_token_payout]
  (repeat' split) <;> rfl

set_option maxHeartbeats 2000000 in
/-- C5 (amended): the verdict is write-once.  A fresh account starts with
`is_verified` absent; no handler changes an already-set verdict (the first
eight conjuncts show every handler preserves it); a `compute_verification`
call after the verdict is set always fails — with
`ComputationIsAlreadyFinished` when the vkey-frozen and vkey-id guards pass —
and an `init_verification_proof` call after the verdict is set always fails —
with `ComputationIsAlreadyFinished` when the account is in state
`FeeTransferred` (the state in which that guard is reachable), and with
`InvalidAccountState` from the earlier state guard otherwise. -/
theorem claim_C5_verdict_write_once :
    (∀ fp sk vk req,
      (VerificationAccount.setup fp sk vk req).is_verified = none) ∧
    (∀ fp fpt env (va : VerificationAccount),
      (init_verification_transfer_fee fp fpt env va).2.is_verified =
        va.is_verified) ∧
    (∀ fp proof (va : VerificationAccount),
      (init_verification_proof fp proof va).2.is_verified = va.is_verified) ∧
    (∀ frozen vid stepper (va : VerificationAccount) b,
      va.is_verified = some b →
      (compute_verification frozen vid stepper va).2.is_verified = some b) ∧
    (∀ g r i tr ik memo enforce tc ptr (queue : RQState CommitmentHashRequest)
        data um (va : VerificationAccount),
      (finalize_verification_send g r i tr ik memo enforce tc ptr queue data
        um va).2.is_verified = va.is_verified) ∧
    (∀ enforce try_ins ici (va : VerificationAccount),
      (finalize_verification_send_nullifier enforce try_ins ici
        va).2.is_verified = va.is_verified) ∧
    (∀ ofp r nd env (queue : RQState CommitmentHashRequest)
        (va : VerificationAccount),
      (finalize_verification_transfer_lamports ofp r nd env queue
        va).2.1.is_verified = va.is_verified) ∧
    (∀ ofp ofpa r rw nd mint env (queue : RQState CommitmentHashRequest)
        (va : VerificationAccount),
      (finalize_verification_transfer_token ofp ofpa r rw nd mint env queue
        va).2.1.is_verified = va.is_verified) ∧
    (∀ frozen vid stepper (va : VerificationAccount) b,
      va.is_verified = some b →
      (∃ e, (compute_verification frozen vid stepper va).1 = .error e) ∧
      (frozen = true → va.vkey_id = vid →
        compute_verification frozen vid stepper va =
          (.error .ComputationIsAlreadyFinished, va))) ∧
    (∀ fp proof (va : VerificationAccount) b,
      va.is_verified = some b →
      (∃ e, (init_verification_proof fp proof va).1 = .error e) ∧
      (va.state = VerificationState.FeeTransferred →
        init_verification_proof fp proof va =
          (.error .ComputationIsAlreadyFinished, va))) := by
  refine ⟨?_, ?_, ?_, ?_, ?_, ?_, ?_, ?_, ?_, ?_⟩
  · intro fp sk vk req
    rfl
  · intro fp fpt env va
    simp only [init_verification_transfer_fee, init_verification_transfer_fee_rest]
    (repeat' split) <;> rfl
  · intro fp proof va
    simp only [init_verification_proof]
    (repeat' split) <;> rfl
  · intro frozen vid stepper va b hv
    simp only [compute_verification]
    (repeat' split) <;> simp_all
  · intro g r i tr ik memo enforce tc ptr queue data um va
    simp only [finalize_verification_send]
    (repeat' split) <;> rfl
  · intro enforce try_ins ici va
    simp only [finalize_verification_send_nullifier]
    (repeat' split) <;> rfl
  · intro ofp r nd env queue va
    simp only [finalize_verification_transfer_lamports]
    (repeat' split) <;> rfl
  · intro ofp ofpa r rw nd mint env queue va
    simp only [finalize_verification_transfer_token]
    (repeat' split) <;>
      first
        | rfl
        | apply transfer_token_invalid_is_verified
        | apply transfer_token_payout_is_verified
  · intro frozen vid stepper va b hv
    constructor
    · by_cases h1 : frozen = true
      · by_cases h2 : va.vkey_id = vid
        · exact ⟨.ComputationIsAlreadyFinished,
            by simp [compute_verification, h1, h2, hv]⟩
        · exact ⟨.InvalidAccount, by simp [compute_verification, h1, h2]⟩
      · exact ⟨.InvalidAccount, by simp [compute_verification, h1]⟩
    · intro hfr hid
      simp [compute_verification, hfr, hid, hv]
  · intro fp proof va b hv
    constructor
    · by_cases hst : va.state = VerificationState.FeeTransferred
      · exact ⟨.ComputationIsAlreadyFinished,
          by simp [init_verification_proof, hst, hv]⟩
      · exact ⟨.InvalidAccountState, by simp [init_verification_proof, hst]⟩
    · intro hst
      simp [init_verification_proof, hst, hv]

/-- C5 counterexample: the claim as stated says every
`init_verification_proof` call after the verdict is set fails with
`ComputationIsAlreadyFinished`.  On a `ProofSetup` account with verdict
`Some(true)` (the state a verdict-carrying account is normally in) the call
fails with `InvalidAccountState` instead, because the state guard fires
first. -/
theorem claim_C5_counterexample :
    (sampleVA .ProofSetup (some true) none).is_verified = some true ∧
    init_verification_proof 1 { a := 0, b := 0, c := 0 }
        (sampleVA .ProofSetup (some true) none) =
      (.error .InvalidAccountState, sampleVA .ProofSetup (some true) none) ∧
    Err.InvalidAccountState ≠ Err.ComputationIsAlreadyFinished :=
  ⟨by decide, by decide, by decide⟩

/-- Witness for C5: a concrete `compute_verification` call after the verdict
was set fails with `ComputationIsAlreadyFinished` and leaves the account
unchanged. -/
theorem claim_C5_witness :
    (sampleVA .ProofSetup (some true) none).is_verified = some true ∧
    compute_verification true 0 (.ok (.ok none))
        (sampleVA .ProofSetup (some true) none) =
      (.error .ComputationIsAlreadyFinished,
       sampleVA .ProofSetup (some true) none) := by
  refine ⟨by decide, ?_⟩
  exact (claim_C5_verdict_write_once.2.2.2.2.2.2.2.2.1 true 0 (.ok (.ok none))
    (sampleVA .ProofSetup (some true) none) true (by decide)).2 rfl (by decide)

/-- C6: proof-rejected error translation in `compute_verification`.  When the
guards pass and the stepper returns an inner error, the handler records
verdict `Some(false)` and returns success — unless the error is
`InvalidAccountState`, which is propagated unchanged (the only stepper error
that is). -/
theorem claim_C6_error_translation (frozen : Bool) (vid : Nat) (e : Err)
    (va : VerificationAccount)
    (hfr : frozen = true) (hid : va.vkey_id = vid)
    (hv : va.is_verified = none)
    (hst : va.state = VerificationState.None ∨
           va.state = VerificationState.ProofSetup) :
    (e ≠ Err.InvalidAccountState →
      compute_verification frozen vid (.ok (.error e)) va =
        (.ok (), { va with is_verified := some false })) ∧
    (e = Err.InvalidAccountState →
      compute_verification frozen vid (.ok (.error e)) va =
        (.error Err.InvalidAccountState, va)) := by
  rcases hst with h | h <;>
    exact ⟨fun he => by simp [compute_verification, hfr, hid, hv, h, he],
           fun he => by simp [compute_verification, hfr, hid, hv, h, he]⟩

/-- Witness for C6: a concrete rejected-proof translation. -/
theorem claim_C6_witness :
    compute_verification true 0 (.ok (.error .InvalidPublicInputs))
        (sampleVA .ProofSetup none none) =
      (.ok (), { sampleVA .ProofSetup none none with
                   is_verified := some false }) := by
  exact (claim_C6_error_translation true 0 .InvalidPublicInputs
    (sampleVA .ProofSetup none none) rfl (by decide) (by decide)
    (Or.inr (by decide))).1 (by decide)

/-- C7: verdict handling in `finalize_verification_send`.  In state
`ProofSetup`, on a Send request whose recomputed hashed inputs match the
statement (no memo): (a) an unset verdict fails with
`ComputationIsNotYetFinished` (the recipient wallet having been recorded);
(b) verdict `Some(false)` transitions directly to `Finalized` and returns
success, for every value of the sibling-enforcement outcome and of the
commitment-index inputs (those checks are not performed); (c) the state
advances to `InsertNullifiers` only when the verdict is `Some(true)`. -/
theorem claim_C7_verdict_handling
    (g : GenHashArgs → Nat) (r i tr ik : Nat) (memo : Except Err (List Nat))
    (enforce : Except Err Unit) (tc ptr : Nat)
    (queue : RQState CommitmentHashRequest)
    (data : FinalizeSendData) (va : VerificationAccount)
    (pi : SendPublicInputs)
    (hst : va.state = VerificationState.ProofSetup)
    (hreq : va.request = ProofRequest.Send pi)
    (hhash : g { recipient := r, identifier := i, iv := data.iv,
                 encrypted_owner := data.encrypted_owner,
                 reference := if tr ≠ ik then tr else 0,
                 is_associated_token_account :=
                   pi.recipient_is_associated_token_account,
                 memo := none } = pi.hashed_inputs) :
    (va.is_verified = none →
      finalize_verification_send g r i tr ik memo enforce tc ptr queue data
          false va =
        (.error .ComputationIsNotYetFinished,
         { va with other_data :=
             { va.other_data with recipient_wallet := some r } })) ∧
    (va.is_verified = some false →
      finalize_verification_send g r i tr ik memo enforce tc ptr queue data
          false va =
        (.ok (),
         { va with
             other_data := { va.other_data with recipient_wallet := some r },
             state := VerificationState.Finalized })) ∧
    ((finalize_verification_send g r i tr ik memo enforce tc ptr queue data
        false va).2.state = VerificationState.InsertNullifiers →
      va.is_verified = some true) := by
  simp only [ne_eq, ite_not] at hhash
  refine ⟨?_, ?_, ?_⟩
  · intro hv
    simp [finalize_verification_send, hst, hreq, hv, hhash]
  · intro hv
    simp [finalize_verification_send, hst, hreq, hv, hhash]
  · intro hfin
    match hv : va.is_verified with
    | some true => rfl
    | none =>
      rw [show (finalize_verification_send g r i tr ik memo enforce tc ptr
          queue data false va) =
        (.error .ComputationIsNotYetFinished,
         { va with other_data :=
             { va.other_data with recipient_wallet := some r } }) from
        by simp [finalize_verification_send, hst, hreq, hv, hhash]] at hfin
      simp [hst] at hfin
    | some false =>
      rw [show (finalize_verification_send g r i tr ik memo enforce tc ptr
          queue data false va) =
        (.ok (),
         { va with
             other_data := { va.other_data with recipient_wallet := some r },
             state := VerificationState.Finalized }) from
        by simp [finalize_verification_send, hst, hreq, hv, hhash]] at hfin
      simp at hfin

/-- Witness for C7 at a concrete Send verification with unset verdict. -/
theorem claim_C7_witness :
    finalize_verification_send (fun _ => 5) 42 8 9 9 (.ok []) (.ok ()) 0 0
        sampleQueue sampleFinalizeData false (sampleVA .ProofSetup none none) =
      (.error .ComputationIsNotYetFinished,
       { sampleVA .ProofSetup none none with
           other_data :=
             { (sampleVA .ProofSetup none none).other_data with
                 recipient_wallet := some 42 } }) := by
  exact (claim_C7_verdict_handling (fun _ => 5) 42 8 9 9 (.ok []) (.ok ()) 0 0
    sampleQueue sampleFinalizeData (sampleVA .ProofSetup none none) sampleSend
    rfl rfl (by decide)).1 rfl

/-- C8: the fee floor in `init_verification_transfer_fee`.  With the state,
fee-payer and fee-version guards passing and the fee computation
`((commitment_hash_fee_token + proof_verification_fee) + network_fee) -
subvention` succeeding with minimum `minFee`: a declared fee strictly below
`minFee` is rejected with `InvalidPublicInputs` (account unchanged), a
declared fee at or above `minFee` passes the fee check (the handler proceeds
to the transfer part), and handler success implies the declared fee was at
least `minFee`. -/
theorem claim_C8_fee_floor (fp fpt : Nat) (env : TransferFeeEnv)
    (va : VerificationAccount) (s p c s1 s2 minFee : Nat)
    (hst : va.state = VerificationState.None)
    (hfp : va.other_data.fee_payer = fp)
    (hver : va.request.fee_version = env.governor_fee_version)
    (hprice : env.price = .ok ())
    (hsub : env.subvention = .ok s)
    (hpvf : env.proof_verification_fee = .ok p)
    (hchft : env.commitment_hash_fee_token = .ok c)
    (h1 : checkedAdd c p = .ok s1)
    (h2 : checkedAdd s1 env.network_fee = .ok s2)
    (h3 : checkedSub s2 s = .ok minFee) :
    (va.request.join_split_inputs.fee < minFee →
      init_verification_transfer_fee fp fpt env va =
        (.error .InvalidPublicInputs, va)) ∧
    (minFee ≤ va.request.join_split_inputs.fee →
      init_verification_transfer_fee fp fpt env va =
        init_verification_transfer_fee_rest fp fpt env s p c va) ∧
    ((init_verification_transfer_fee fp fpt env va).1 = .ok () →
      minFee ≤ va.request.join_split_inputs.fee) := by
  have key : init_verification_transfer_fee fp fpt env va =
      if va.request.join_split_inputs.fee < minFee then
        (.error .InvalidPublicInputs, va)
      else init_verification_transfer_fee_rest fp fpt env s p c va := by
    simp [init_verification_transfer_fee, hst, hfp, hver, hprice, hsub, hpvf,
      hchft, h1, h2, h3]
  refine ⟨?_, ?_, ?_⟩
  · intro h
    rw [key, if_pos h]
  · intro h
    rw [key, if_neg (by omega)]
  · intro hok
    by_contra hlt
    rw [key, if_pos (by omega)] at hok
    simp at hok

/-- Witness for C8: with the sample fee environment the minimum fee is 14; a
declared fee of 10 is rejected with `InvalidPublicInputs` and a declared fee
of 14 passes the fee check. -/
theorem claim_C8_witness :
    init_verification_transfer_fee 1 2 sampleFeeEnv (sampleVAFee 10 .None) =
      (.error .InvalidPublicInputs, sampleVAFee 10 .None) ∧
    init_verification_transfer_fee 1 2 sampleFeeEnv (sampleVAFee 14 .None) =
      init_verification_transfer_fee_rest 1 2 sampleFeeEnv 3 7 6
        (sampleVAFee 14 .None) := by
  constructor
  · exact (claim_C8_fee_floor 1 2 sampleFeeEnv (sampleVAFee 10 .None)
      3 7 6 13 17 14 rfl rfl rfl rfl rfl rfl rfl (by decide) (by decide)
      (by decide)).1 (by decide)
  · exact (claim_C8_fee_floor 1 2 sampleFeeEnv (sampleVAFee 14 .None)
      3 7 6 13 17 14 rfl rfl rfl rfl rfl rfl rfl (by decide) (by decide)
      (by decide)).2.1 (by decide)

set_option maxHeartbeats 2000000 in
/-- C9 (amended): handlers perform no mutation on error paths that precede
their first write.  Every error return of `init_verification_transfer_fee`,
`init_verification_proof`, `compute_verification` and
`finalize_verification_send_nullifier` leaves the verification account
unchanged; for the remaining handlers every wrong-state failure leaves the
account and queue unchanged.  (Full error atomicity fails at the handler
level — see the counterexample — and is provided by the runtime's
transaction rollback, which the spec says the code relies on.) -/
theorem claim_C9_error_cleanliness :
    (∀ fp fpt env (va : VerificationAccount) e,
      (init_verification_transfer_fee fp fpt env va).1 = .error e →
      (init_verification_transfer_fee fp fpt env va).2 = va) ∧
    (∀ fp proof (va : VerificationAccount) e,
      (init_verification_proof fp proof va).1 = .error e →
      (init_verification_proof fp proof va).2 = va) ∧
    (∀ frozen vid stepper (va : VerificationAccount) e,
      (compute_verification frozen vid stepper va).1 = .error e →
      (compute_verification frozen vid stepper va).2 = va) ∧
    (∀ enforce try_ins ici (va : VerificationAccount) e,
      (finalize_verification_send_nullifier enforce try_ins ici va).1 =
        .error e →
      (finalize_verification_send_nullifier enforce try_ins ici va).2 = va) ∧
    (∀ g r i tr ik memo enforce tc ptr (queue : RQState CommitmentHashRequest)
        data um (va : VerificationAccount),
      va.state ≠ VerificationState.ProofSetup →
      finalize_verification_send g r i tr ik memo enforce tc ptr queue data
        um va = (.error .InvalidAccountState, va)) ∧
    (∀ ofp r nd env (queue : RQState CommitmentHashRequest)
        (va : VerificationAccount),
      va.state ≠ VerificationState.Finalized →
      finalize_verification_transfer_lamports ofp r nd env queue va =
        (.error .InvalidAccountState, va, queue)) ∧
    (∀ ofp ofpa r rw nd mint env (queue : RQState CommitmentHashRequest)
        (va : VerificationAccount),
      va.state ≠ VerificationState.Finalized →
      ∃ e, finalize_verification_transfer_token ofp ofpa r rw nd mint env
        queue va = (.error e, va, queue)) := by
  refine ⟨?_, ?_, ?_, ?_, ?_, ?_, ?_⟩
  · intro fp fpt env va e he
    simp only [init_verification_transfer_fee,
      init_verification_transfer_fee_rest] at he ⊢
    (repeat' split) <;> first | rfl | simp_all
  · intro fp proof va e he
    simp only [init_verification_proof] at he ⊢
    (repeat' split) <;> first | rfl | simp_all
  · intro frozen vid stepper va e he
    simp only [compute_verification] at he ⊢
    (repeat' split) <;>
      first | rfl | (simp_all; done) | (split at he <;> simp_all)
  · intro enforce try_ins ici va e he
    simp only [finalize_verification_send_nullifier] at he ⊢
    (repeat' split) <;> first | rfl | simp_all
  · intro g r i tr ik memo enforce tc ptr queue data um va hne
    simp [finalize_verification_send, hne]
  · intro ofp r nd env queue va hne
    simp [finalize_verification_transfer_lamports, hne]
  · intro ofp ofpa r rw nd mint env queue va hne
    cases hw : va.other_data.recipient_wallet with
    | none =>
      exact ⟨.Panicked, by simp [finalize_verification_transfer_token, hw]⟩
    | some w =>
      exact ⟨.InvalidAccountState,
        by simp [finalize_verification_transfer_token, hw, hne]⟩

/-- C9 counterexample: the claim as stated says every handler error leaves
all writable state unchanged.  `finalize_verification_send` on a `ProofSetup`
Send account with matching hashed inputs and an unset verdict returns
`Err(ComputationIsNotYetFinished)` after having recorded the recipient
wallet in `other_data`: the returned account differs from the initial one. -/
theorem claim_C9_counterexample :
    (finalize_verification_send (fun _ => 5) 42 8 9 9 (.ok []) (.ok ()) 0 0
        sampleQueue sampleFinalizeData false
        (sampleVA .ProofSetup none none)).1 =
      .error .ComputationIsNotYetFinished ∧
    (finalize_verification_send (fun _ => 5) 42 8 9 9 (.ok []) (.ok ()) 0 0
        sampleQueue sampleFinalizeData false
        (sampleVA .ProofSetup none none)).2 ≠
      sampleVA .ProofSetup none none ∧
    (finalize_verification_send (fun _ => 5) 42 8 9 9 (.ok []) (.ok ()) 0 0
        sampleQueue sampleFinalizeData false
        (sampleVA .ProofSetup none none)).2.other_data.recipient_wallet =
      some 42 ∧
    (sampleVA .ProofSetup none none).other_data.recipient_wallet = none :=
  ⟨by decide, by decide, by decide, by decide⟩

/-- Witness for C9: a concrete failing sibling-enforcement in
`finalize_verification_send_nullifier` leaves the account unchanged. -/
theorem claim_C9_witness :
    (finalize_verification_send_nullifier (.error .InvalidOtherInstruction)
        (fun _ => .ok ()) 0
        (sampleVA .InsertNullifiers (some true) (some 42))).1 =
      .error .InvalidOtherInstruction ∧
    (finalize_verification_send_nullifier (.error .InvalidOtherInstruction)
        (fun _ => .ok ()) 0
        (sampleVA .InsertNullifiers (some true) (some 42))).2 =
      sampleVA .InsertNullifiers (some true) (some 42) := by
  refine ⟨by decide, ?_⟩
  exact claim_C9_error_cleanliness.2.2.2.1 (.error .InvalidOtherInstruction)
    (fun _ => .ok ()) 0 (sampleVA .InsertNullifiers (some true) (some 42))
    .InvalidOtherInstruction (by decide)

theorem nullifierLoop_second_root (try_insert : Nat → Except Err Unit)
    (ici : Nat) :
    ∀ (rest : List InputCommitment) (idx counter : Nat), 1 ≤ counter →
    ∀ j ic, rest.get? j = some ic → ic.root.isSome = true → idx + j ≤ ici →
    nullifierLoop try_insert ici rest idx counter =
      .error .FeatureNotAvailable := by
  intro rest
  induction rest with
  | nil =>
    intro idx counter hc j ic hj
    simp at hj
  | cons ic0 r ih =>
    intro idx counter hc j ic hj hroot hle
    cases hr : ic0.root with
    | some root =>
      have hcne : counter ≠ 0 := by omega
      simp [nullifierLoop, hr, hcne]
    | none =>
      cases j with
      | zero =>
        rw [List.get?_cons_zero] at hj
        injection hj with hj
        subst hj
        rw [hr] at hroot
        simp at hroot
      | succ j' =>
        have hne : ¬ (idx = ici) := by omega
        simp only [nullifierLoop, hr, hne, if_false]
        simp only [ne_eq, not_true_eq_false, not_false_eq_true, if_neg hne,
          reduceIte]
        exact ih (idx + 1) counter hc j' ic (by simpa using hj) hroot
          (by omega)

theorem usizeWrapSubOne_eq {n : Nat} (h1 : 1 ≤ n) (h2 : n < 2 ^ 64) :
    usizeWrapSubOne n = n - 1 := by
  unfold usizeWrapSubOne
  rw [mod_two_intervals (by omega)]
  split_ifs <;> omega

/-- C10: a Send statement whose input commitments reference a second distinct
Merkle tree (a commitment after the first carries its own root) can never get
its nullifiers inserted: `finalize_verification_send_nullifier` fails with
`FeatureNotAvailable` for every `input_commitment_index` at or beyond that
second-root commitment and the account never reaches `Finalized` from
`InsertNullifiers` — even though `MAX_MT_COUNT = 2` and
`check_join_split_public_inputs` (run by `init_verification`) accepts a
two-root statement, as the last conjunct evaluates on a concrete one. -/
theorem claim_C10_second_tree
    (enforce : Except Err Unit) (try_insert : Nat → Except Err Unit)
    (va : VerificationAccount) (pi : SendPublicInputs)
    (p : Nat) (icp : InputCommitment)
    (hst : va.state = VerificationState.InsertNullifiers)
    (hreq : va.request = ProofRequest.Send pi)
    (henf : enforce = .ok ())
    (h0 : ∃ ic0 r0, pi.join_split.input_commitments.get? 0 = some ic0 ∧
          ic0.root = some r0)
    (hp : 1 ≤ p)
    (hjp : pi.join_split.input_commitments.get? p = some icp)
    (hrootp : icp.root.isSome = true)
    (hlen : pi.join_split.input_commitments.length < 2 ^ 64) :
    (∀ ici, p ≤ ici →
      finalize_verification_send_nullifier enforce try_insert ici va =
        (.error .FeatureNotAvailable, va)) ∧
    (∀ ici,
      (finalize_verification_send_nullifier enforce try_insert ici
        va).2.state ≠ VerificationState.Finalized) ∧
    MAX_MT_COUNT = 2 ∧
    check_join_split_public_inputs (fun _ => true) (fun _ => 5)
        (fun _ _ => .ok true) 0 [0, 1] sampleJoinSplitTwoRoots = .ok () := by
  obtain ⟨ic0, r0, h00, h0r⟩ := h0
  cases hl : pi.join_split.input_commitments with
  | nil =>
    rw [hl] at h00
    simp at h00
  | cons a rest =>
    rw [hl] at h00 hjp hlen
    have ha : a = ic0 := by simpa using h00
    subst ha
    obtain ⟨p', rfl⟩ : ∃ p', p = p' + 1 := ⟨p - 1, by omega⟩
    have hjp' : rest.get? p' = some icp := by simpa using hjp
    have hplen : p' < rest.length := by
      by_contra hge
      rw [List.get?_eq_none.mpr (by omega)] at hjp'
      cases hjp'
    have hloop : ∀ ici, p' + 1 ≤ ici →
        nullifierLoop try_insert ici (a :: rest) 0 0 =
          .error .FeatureNotAvailable := by
      intro ici hici
      have h0ne : ¬ ((0 : Nat) = ici) := by omega
      simp only [nullifierLoop, h0r, ne_eq, not_true_eq_false,
        not_false_eq_true, if_neg h0ne, reduceIte]
      exact nullifierLoop_second_root try_insert ici rest 1 1 (by omega)
        p' icp hjp' hrootp (by omega)
    refine ⟨?_, ?_, by decide, by decide⟩
    · intro ici hici
      simp [finalize_verification_send_nullifier, hst, hreq, henf, hl,
        hloop ici hici]
    · intro ici
      by_cases hici : p' + 1 ≤ ici
      · have hres := hloop ici hici
        simp [finalize_verification_send_nullifier, hst, hreq, henf, hl,
          hres]
      · cases hres : nullifierLoop try_insert ici (a :: rest) 0 0 with
        | error e =>
          simp [finalize_verification_send_nullifier, hst, hreq, henf, hl,
            hres]
        | ok u =>
          have h2 : rest.length + 1 < 2 ^ 64 := by simpa using hlen
          have hne : ¬ (ici = rest.length) := by omega
          simp [finalize_verification_send_nullifier, hst, hreq, henf, hl,
            hres, usizeWrapSubOne_eq (by omega) h2, hne]

/-- Witness for C10 at a concrete two-root Send verification. -/
theorem claim_C10_witness :
    finalize_verification_send_nullifier (.ok ()) (fun _ => .ok ()) 1
        (sampleVATwoRoots .InsertNullifiers (some true)) =
      (.error .FeatureNotAvailable,
       sampleVATwoRoots .InsertNullifiers (some true)) := by
  exact (claim_C10_second_tree (.ok ()) (fun _ => .ok ())
    (sampleVATwoRoots .InsertNullifiers (some true)) sampleSendTwoRoots 1
    { root := some 5, nullifier_hash := 12 }
    rfl rfl rfl ⟨{ root := some 3, nullifier_hash := 11 }, 3, by decide,
      by decide⟩
    (by decide) (by decide) (by decide) (by decide)).1 1 (by decide)
